import Mathlib

/-!
Shallow embedding of the noeval interpreter core (fisherro/noeval).

The embedding follows `src/noeval.cpp` (the natively recursive evaluator that
is the only complete evaluator implementation under src/) together with the
inline definitions of `src/noeval.hpp`.  Where a declared component of the
newer design has no implementation under src/ (the trampoline evaluator, the
garbage collector, the structural `operator==` over whole values), the
definition is modelled from spec.md and marked as such in its doc comment.

Modelling conventions:
- `value_ptr` sharing is not modelled; values are trees.  The one mutable
  value kind, `mutable_binding`, holds an index into a store of cells, so the
  in-place mutation performed by `set!` is a store update, visible through
  every occurrence of the same wrapper, as for the shared C++ cell.
- Environments are records in a store keyed by numeric ids; `env_ptr` becomes
  an id.  `std::unordered_map` bindings become association lists where
  `define`'s insert-or-overwrite keeps at most one entry per name.
- C++ `int` arithmetic is modelled with `Int` (no claim involves overflow).
- Exceptions become an error sum threaded with the state (C++ exceptions do
  not roll back side effects, so the state is returned on the error path too).
- Native recursion is bounded by an explicit fuel; `out_of_fuel` is a model
  artifact standing for non-termination / stack exhaustion, and `bad_state`
  stands for dereferencing an unregistered environment or cell, which cannot
  happen in states the C++ program can reach.
-/

namespace Noeval

deriving instance DecidableEq for Except


/-- Parameter pattern of an operative, from `param_pattern` in noeval.cpp:
either variadic (a single rest name for the whole operand list) or a fixed
positional name list. -/
structure param_pattern where
  is_variadic : Bool
  param_names : List String
deriving Repr, DecidableEq

/-- Identifiers for the native builtin operatives installed by
`create_global_environment` in noeval.cpp that this development models. -/
inductive builtin_id where
  | vauB
  | evalB
  | defineB
  | doB
  | defineMutableB
  | setB
  | eqB
  | minusB
deriving Repr, DecidableEq

/-- Printed name of a builtin, as registered by `create_global_environment`. -/
def builtin_name : builtin_id → String
  | .vauB => "vau"
  | .evalB => "eval"
  | .defineB => "define"
  | .doB => "do"
  | .defineMutableB => "define-mutable"
  | .setB => "set!"
  | .eqB => "="
  | .minusB => "-"

/-- The runtime value variant, from `struct value` in noeval.cpp, extended
with the `eof_object` alternative and the operative `tag` field that the
newer variant in noeval.hpp declares (the older variant in noeval.cpp lacks
both; operatives built by `vau` carry the empty tag, matching the hpp
constructor default).  `oper` is `struct operative` (parameter pattern,
environment-parameter name, body, closure environment, tag), `builtin` is
`struct builtin_operative`, `envref` is the `env_ptr` alternative, `mutbind`
is `struct mutable_binding` with its wrapped value stored in a cell. -/
inductive val where
  | num (n : Int)
  | str (s : String)
  | sym (name : String)
  | pair (car cdr : val)
  | oper (params : param_pattern) (env_param : String) (body : val)
      (closure_env : Nat) (tag : String)
  | builtin (b : builtin_id)
  | envref (e : Nat)
  | mutbind (cell : Nat)
  | eof
  | nil
deriving Repr, DecidableEq

/-- One environment, from `struct environment` in noeval.cpp: a bindings map
plus an optional parent link. -/
structure env_record where
  bindings : List (String × val)
  parent : Option Nat
deriving Repr, DecidableEq

/-- The mutable world: the registry of all constructed environments, the
store of mutable-binding cells, fresh-id counters, and the GC root pins of
noeval.hpp (a map from environment to pin count, empty while no host pins
anything). -/
structure interp_state where
  envs : List (Nat × env_record)
  cells : List (Nat × val)
  next_env : Nat
  next_cell : Nat
  roots : List (Nat × Nat)
deriving Repr, DecidableEq

/-- Fetch a registered environment by id. -/
def find_env (s : interp_state) (e : Nat) : Option env_record :=
  s.envs.lookup e

/-- Replace the value stored under the first occurrence of a key in an
association list (the model of assigning through `operator[]` /
a shared pointer; keys are unique in reachable states). -/
def assoc_set {β : Type} : List (Nat × β) → Nat → β → List (Nat × β)
  | [], _, _ => []
  | (a, b) :: t, k, v => if a = k then (k, v) :: t else (a, b) :: assoc_set t k v

/-- Replace the record stored for environment `e` (no-op when `e` is not
registered). -/
def set_env (s : interp_state) (e : Nat) (r : env_record) : interp_state :=
  { s with envs := assoc_set s.envs e r }

/-- Construct a fresh environment with the given parent, as
`std::make_shared<environment>(parent)` does in noeval.cpp. -/
def alloc_env (s : interp_state) (parent : Option Nat) : Nat × interp_state :=
  (s.next_env,
   { s with envs := (s.next_env, ⟨[], parent⟩) :: s.envs,
            next_env := s.next_env + 1 })

/-- Fetch a mutable-binding cell by id. -/
def find_cell (s : interp_state) (c : Nat) : Option val :=
  s.cells.lookup c

/-- Overwrite the contents of cell `c`, as `set!`'s in-place assignment to
`mutable_binding::value` does. -/
def set_cell (s : interp_state) (c : Nat) (v : val) : interp_state :=
  { s with cells := assoc_set s.cells c v }

/-- Allocate a fresh cell holding `v`, as constructing a `mutable_binding`
does. -/
def alloc_cell (s : interp_state) (v : val) : Nat × interp_state :=
  (s.next_cell,
   { s with cells := (s.next_cell, v) :: s.cells,
            next_cell := s.next_cell + 1 })

/-- Insert-or-overwrite a binding in the local scope only, from
`environment::define` in noeval.cpp (`bindings[name] = val`).  The
association list keeps at most one entry per name. -/
def env_define (s : interp_state) (e : Nat) (name : String) (v : val) :
    interp_state :=
  match find_env s e with
  | some r =>
      set_env s e
        { r with bindings :=
            (name, v) :: r.bindings.filter (fun p => p.1 ≠ name) }
  | none => s

/-- Errors.  `eval_err` is `evaluation_error` (message and context; the
stack-trace field is always empty in noeval.cpp and is omitted),
`runtime_err` is a plain `std::runtime_error`; the last two are model
artifacts described in the header comment. -/
inductive interp_err where
  | eval_err (message : String) (context : String)
  | runtime_err (message : String)
  | out_of_fuel
  | bad_state (message : String)
deriving Repr, DecidableEq

/-- Rendering of a string value, from `to_string(const std::string&)` in
noeval.cpp: surrounding quotes plus escaping of quote, backslash, newline
and tab. -/
def string_escape (s : String) : String :=
  "\"" ++ String.join (s.toList.map (fun c =>
    if c = '"' then "\\\""
    else if c = '\\' then "\\\\"
    else if c = '\n' then "\\n"
    else if c = '\t' then "\\t"
    else String.singleton c)) ++ "\""

/-- Rendering of a parameter pattern inside `operative::to_string`: a
variadic pattern prints its single name bare, a fixed pattern prints the
space-separated names in parentheses. -/
def params_to_string (p : param_pattern) : String :=
  if p.is_variadic then String.intercalate " " p.param_names
  else "(" ++ String.intercalate " " p.param_names ++ ")"

/-- Separator prefix used by the list-rendering walk of
`cons_cell::to_string`: an improper tail is preceded by a dot. -/
def tail_dot : Bool → String
  | false => ""
  | true => " . "

/-- Canonical textual rendering, from `value_to_string` and the per-type
`to_string` functions in noeval.cpp.  The Bool is true while walking the
tail of a list inside `cons_cell::to_string` (elements space-separated, a
dot-tail fallback for an improper tail); it is folded into one function so
the recursion is structural.  Deviations forced by the model: the
environment rendering uses the environment id where C++ prints the pointer
address, and the mutable-binding rendering uses the cell id where C++ prints
the wrapped value (the store is not in scope here); no claim depends on
either rendering. -/
def value_to_string_m : val → Bool → String
  | .pair a d, false =>
      "(" ++ value_to_string_m a false ++ value_to_string_m d true ++ ")"
  | .pair a d, true =>
      " " ++ value_to_string_m a false ++ value_to_string_m d true
  | .nil, false => "()"
  | .nil, true => ""
  | .num n, mode => tail_dot mode ++ toString n
  | .str s, mode => tail_dot mode ++ string_escape s
  | .sym n, mode => tail_dot mode ++ n
  | .oper p ep b _ _, mode =>
      tail_dot mode ++ ("(operative " ++ params_to_string p ++ " " ++ ep ++
        " " ++ value_to_string_m b false ++ ")")
  | .builtin b, mode =>
      tail_dot mode ++ ("#<builtin-operative:" ++ builtin_name b ++ ">")
  | .envref e, mode => tail_dot mode ++ ("#<environment:" ++ toString e ++ ">")
  | .mutbind c, mode => tail_dot mode ++ ("#<mutable:" ++ toString c ++ ">")
  | .eof, mode => tail_dot mode ++ "#<eof-object>"

/-- Top-level rendering of a value (the non-tail mode). -/
def value_to_string (v : val) : String := value_to_string_m v false

/-- Demangled C++ struct name of the alternative held by a value, as
`demangle<T>()` renders it inside `eval`'s cannot-evaluate error. -/
def type_name : val → String
  | .num _ => "int"
  | .str _ => "std::string"
  | .sym _ => "symbol"
  | .pair _ _ => "cons_cell"
  | .oper _ _ _ _ _ => "operative"
  | .builtin _ => "builtin_operative"
  | .envref _ => "std::shared_ptr<environment>"
  | .mutbind _ => "mutable_binding"
  | .eof => "eof_object"
  | .nil => "std::nullptr_t"

/-- Variable lookup, from `environment::lookup` in noeval.cpp: search the
local bindings; on a miss delegate to the parent; at the root with no match
throw `std::runtime_error("Unbound variable: " + name)`.  The fuel bounds the
parent-chain walk (C++ chains are finite and acyclic). -/
def lookup : Nat → interp_state → Nat → String → Except interp_err val
  | 0, _, _, _ => .error .out_of_fuel
  | f + 1, s, e, name =>
    match find_env s e with
    | none => .error (.bad_state "unregistered environment")
    | some r =>
      match r.bindings.lookup name with
      | some v => .ok v
      | none =>
        match r.parent with
        | some p => lookup f s p name
        | none => .error (.runtime_err ("Unbound variable: " ++ name))

/-- Symbol evaluation, from `eval_symbol` in noeval.cpp: look the name up;
if the resolved binding is a mutable binding return its currently wrapped
value instead of the wrapper; any exception is wrapped into an
`evaluation_error` whose context is the symbol name. -/
def eval_symbol (f : Nat) (s : interp_state) (e : Nat) (name : String) :
    Except interp_err val :=
  match lookup f s e name with
  | .ok v =>
    match v with
    | .mutbind c =>
      match find_cell s c with
      | some w => .ok w
      | none => .error (.bad_state "missing cell")
    | _ => .ok v
  | .error (.runtime_err m) => .error (.eval_err m name)
  | .error err => .error err

/-- Conversion of a list value to a sequence, from `list_to_vector` in
noeval.cpp: walk `cdr`s collecting `car`s; a non-nil tail throws
`std::runtime_error("Improper list")`. -/
def list_to_vector : val → Except interp_err (List val)
  | .pair a d => (list_to_vector d).map (a :: ·)
  | .nil => .ok []
  | _ => .error (.runtime_err "Improper list")

/-- Parameter binding, from `bind_parameters` in noeval.cpp: a variadic
pattern binds the entire unevaluated operand list to its single name; a
fixed pattern converts the operands to a sequence and binds them 1:1, with a
length mismatch failing before any binding is made. -/
def bind_parameters (params : param_pattern) (operands : val) (target : Nat)
    (s : interp_state) : Except interp_err interp_state :=
  if params.is_variadic then
    match params.param_names with
    | [n] => .ok (env_define s target n operands)
    | _ =>
      .error (.eval_err
        "Variadic parameter pattern must have exactly one parameter name" "")
  else
    match list_to_vector operands with
    | .error e => .error e
    | .ok operand_list =>
      if operand_list.length ≠ params.param_names.length then
        .error (.eval_err
          ("Wrong number of arguments: expected " ++
            toString params.param_names.length ++ ", got " ++
            toString operand_list.length) "")
      else
        .ok ((params.param_names.zip operand_list).foldl
          (fun acc p => env_define acc target p.1 p.2) s)

/-- Extraction of a parameter pattern from the first `vau` argument, from
`extract_param_pattern` in noeval.cpp: a bare symbol is variadic; a proper
list of symbols is fixed; anything else throws. -/
def extract_param_pattern (params : val) : Except interp_err param_pattern :=
  match params with
  | .sym n => .ok ⟨true, [n]⟩
  | _ => go params []
where
  /-- Walk of the parameter list collecting names. -/
  go : val → List String → Except interp_err param_pattern
  | .pair p rest, acc =>
    match p with
    | .sym n => go rest (acc ++ [n])
    | _ => .error (.runtime_err "Parameter must be a symbol")
  | .nil, acc => .ok ⟨false, acc⟩
  | _, _ => .error (.runtime_err "Invalid parameter pattern")

/-- Evaluation result paired with the post-state (C++ exceptions do not roll
back side effects, so the state is produced on both paths). -/
abbrev Res := Except interp_err val × interp_state

/-- The type of the recursive evaluation callback threaded through the
helpers: expression, environment, state to result. -/
abbrev EvalFn := val → Nat → interp_state → Res

/-- Error re-wrapping shared by the builtins' try/catch blocks: an
`evaluation_error` is re-thrown unchanged, any other exception is wrapped
once with the builtin's prefix and the enclosing context. -/
def wrap_err (pre ctx : String) : interp_err → interp_err
  | .runtime_err m => .eval_err (pre ++ m) ctx
  | e => e

/-- Context string used by the two-argument builtins' arity errors, from the
nested conditional expressions in noeval.cpp (`define`, `eval`). -/
def two_arg_ctx (name : String) (args : List val) : String :=
  match args with
  | [] => "(" ++ name ++ ")"
  | [a] => "(" ++ name ++ " " ++ value_to_string a ++ ")"
  | a :: b :: _ =>
    "(" ++ name ++ " " ++ value_to_string a ++ " " ++ value_to_string b ++
      " ...)"

/-- Helper to build the expression tree `(eval NAME env)`, from
`make_eval_expression` in noeval.cpp. -/
def make_eval_expression (symbol_name : String) : val :=
  .pair (.sym "eval")
    (.pair (.sym symbol_name) (.pair (.sym "env") .nil))

/-- Church-encoded truth, from `church_true` in noeval.cpp: an operative
selecting its first operand, closing over the environment current at the
comparison. -/
def church_true (env : Nat) : val :=
  .oper ⟨false, ["x", "y"]⟩ "env" (make_eval_expression "x") env ""

/-- Church-encoded falsity, from `church_false` in noeval.cpp. -/
def church_false (env : Nat) : val :=
  .oper ⟨false, ["x", "y"]⟩ "env" (make_eval_expression "y") env ""

/-- The `define` builtin, from `builtins::define_operative`: two arguments,
first a symbol left unevaluated, second evaluated; binds in the current
environment and returns the value. -/
def define_operative (ev : EvalFn) (args : List val) (env : Nat)
    (s : interp_state) : Res :=
  match args with
  | [sym_expr, val_expr] =>
    match sym_expr with
    | .sym n =>
      let ctx := "(define " ++ value_to_string sym_expr ++ " " ++
        value_to_string val_expr ++ ")"
      match ev val_expr env s with
      | (.ok v, s1) => (.ok v, env_define s1 env n v)
      | (.error e, s1) => (.error (wrap_err "define: " ctx e), s1)
    | _ =>
      (.error (.eval_err
        ("define: first argument must be a symbol, got " ++
          value_to_string sym_expr)
        ("(define " ++ value_to_string sym_expr ++ " " ++
          value_to_string val_expr ++ ")")), s)
  | _ =>
    (.error (.eval_err
      ("define: expected 2 arguments (symbol value), got " ++
        toString args.length)
      (two_arg_ctx "define" args)), s)

/-- The `define-mutable` builtin, from
`builtins::define_mutable_operative`: like `define` but wraps the evaluated
value in a fresh mutable binding, returning the original value rather than
the wrapper. -/
def define_mutable_operative (ev : EvalFn) (args : List val) (env : Nat)
    (s : interp_state) : Res :=
  match args with
  | [sym_expr, val_expr] =>
    match sym_expr with
    | .sym n =>
      let ctx := "(define-mutable " ++ value_to_string sym_expr ++ " " ++
        value_to_string val_expr ++ ")"
      match ev val_expr env s with
      | (.ok v, s1) =>
        let (c, s2) := alloc_cell s1 v
        (.ok v, env_define s2 env n (.mutbind c))
      | (.error e, s1) => (.error (wrap_err "define-mutable: " ctx e), s1)
    | _ =>
      (.error (.eval_err "define-mutable: first argument must be a symbol"
        ("(define-mutable " ++ value_to_string sym_expr ++ " " ++
          value_to_string val_expr ++ ")")), s)
  | _ =>
    (.error (.eval_err
      ("define-mutable: expected 2 arguments (symbol value), got " ++
        toString args.length) "define-mutable"), s)

/-- The `set!` builtin, from `builtins::set_operative`: after the arity and
symbol checks it first evaluates the new value, then looks up the current
binding, and only then checks mutability; an immutable binding raises the
not-mutable `evaluation_error`, a mutable one is updated in place. -/
def set_operative (ev : EvalFn) (f : Nat) (args : List val) (env : Nat)
    (s : interp_state) : Res :=
  match args with
  | [sym_expr, val_expr] =>
    match sym_expr with
    | .sym n =>
      let ctx := "(set! " ++ value_to_string sym_expr ++ " " ++
        value_to_string val_expr ++ ")"
      match ev val_expr env s with
      | (.ok new_value, s1) =>
        (match lookup f s1 env n with
         | .ok current_binding =>
           match current_binding with
           | .mutbind c => (.ok new_value, set_cell s1 c new_value)
           | _ =>
             (.error (.eval_err
               ("set!: variable \x27" ++ n ++
                 "\x27 is not mutable (use define-mutable)") ctx), s1)
         | .error e => (.error (wrap_err "set!: " ctx e), s1))
      | (.error e, s1) => (.error (wrap_err "set!: " ctx e), s1)
    | _ =>
      (.error (.eval_err "set!: first argument must be a symbol"
        ("(set! " ++ value_to_string sym_expr ++ " " ++
          value_to_string val_expr ++ ")")), s)
  | _ =>
    (.error (.eval_err
      ("set!: expected 2 arguments (symbol value), got " ++
        toString args.length) "set!"), s)

/-- Context string of the `do` builtin's catch block. -/
def do_ctx (args : List val) : String :=
  "(do" ++ String.join (args.map (fun a => " " ++ value_to_string a)) ++ ")"

/-- Loop of the `do` builtin: evaluate each expression in sequence keeping
the last result; an error stops the loop. -/
def do_loop (ev : EvalFn) : List val → Nat → interp_state → Res
  | [], _, s => (.ok .nil, s)
  | [x], env, s => ev x env s
  | x :: rest, env, s =>
    match ev x env s with
    | (.ok _, s1) => do_loop ev rest env s1
    | r => r

/-- The `do` builtin, from `builtins::do_operative`: with no operands return
nil; otherwise evaluate each operand in order in the caller's environment
and return the value of the last. -/
def do_operative (ev : EvalFn) (args : List val) (env : Nat)
    (s : interp_state) : Res :=
  match args with
  | [] => (.ok .nil, s)
  | _ =>
    match do_loop ev args env s with
    | (.error e, s1) => (.error (wrap_err "do: " (do_ctx args) e), s1)
    | r => r

/-- Builds the expression list value holding the given elements. -/
def val_of_list : List val → val
  | [] => .nil
  | x :: rest => .pair x (val_of_list rest)

/-- Evaluation of a list of expressions in order left to right in one
environment, threading the state: succeeds exactly when every element does,
returning the values in order together with the final state. States the
claim's left-to-right operand evaluation for an operand list of any
length. -/
def eval_each (ev : EvalFn) : List val → Nat → interp_state →
    Except interp_err (List val × interp_state)
  | [], _, s => .ok ([], s)
  | x :: rest, env, s =>
    match ev x env s with
    | (.ok v, s1) =>
      (eval_each ev rest env s1).map (fun p => (v :: p.1, p.2))
    | (.error e, _) => .error e

/-- The `=` builtin, from `builtins::equal_operative`: evaluates both
arguments; integers compare by value and two nils compare equal, yielding
Church booleans closed over the current environment; every other comparison
yields Church falsity. -/
def equal_operative (ev : EvalFn) (args : List val) (env : Nat)
    (s : interp_state) : Res :=
  match args with
  | [a0, a1] =>
    match ev a0 env s with
    | (.ok v1, s1) =>
      (match ev a1 env s1 with
       | (.ok v2, s2) =>
         (match v1, v2 with
          | .num i, .num j =>
            (.ok (if i = j then church_true env else church_false env), s2)
          | .nil, .nil => (.ok (church_true env), s2)
          | _, _ => (.ok (church_false env), s2))
       | r => r)
    | r => r
  | _ =>
    (.error (.eval_err ("=: expected 2 arguments, got " ++
      toString args.length) (two_arg_ctx "=" args)), s)

/-- Fold of an arithmetic builtin over its remaining operands, from the
`std::ranges::fold_left` call in `make_arithmetic_operative`. -/
def arith_fold (ev : EvalFn) (op_name : String) (op : Int → Int → Int)
    (acc : Int) : List val → Nat → interp_state → Res
  | [], _, s => (.ok (.num acc), s)
  | a :: rest, env, s =>
    match ev a env s with
    | (.ok v, s1) =>
      (match v with
       | .num i => arith_fold ev op_name op (op acc i) rest env s1
       | _ =>
         (.error (.eval_err
           (op_name ++ ": argument must be an integer, got " ++
             value_to_string v)
           ("... " ++ value_to_string a ++ " ...")), s1))
    | r => r

/-- An arithmetic builtin, from `make_arithmetic_operative` in noeval.cpp:
at least one operand, each evaluated and required to be an integer, folded
left with the operation. -/
def arithmetic_operative (ev : EvalFn) (op_name : String)
    (op : Int → Int → Int) (args : List val) (env : Nat)
    (s : interp_state) : Res :=
  match args with
  | [] =>
    (.error (.eval_err (op_name ++ ": requires at least one argument")
      ("(" ++ op_name ++ ")")), s)
  | a0 :: rest =>
    match ev a0 env s with
    | (.ok v0, s1) =>
      (match v0 with
       | .num i0 => arith_fold ev op_name op i0 rest env s1
       | _ =>
         (.error (.eval_err
           (op_name ++ ": argument must be an integer, got " ++
             value_to_string v0)
           ("(" ++ op_name ++ " " ++ value_to_string a0 ++ " ...)")), s1))
    | (.error e, s1) =>
      (.error (wrap_err (op_name ++ ": ")
        ("(" ++ op_name ++
          String.join (args.map (fun a => " " ++ value_to_string a)) ++ ")")
        e), s1)

/-- The `vau` builtin, from `builtins::vau_operative`: three unevaluated
arguments (parameter pattern, environment-parameter name or nil for ignore,
body); constructs an operative closing over the current environment. -/
def vau_operative (args : List val) (env : Nat) (s : interp_state) : Res :=
  match args with
  | [params_expr, env_param_expr, body_expr] =>
    let ctx := "(vau " ++ value_to_string params_expr ++ " " ++
      value_to_string env_param_expr ++ " " ++ value_to_string body_expr ++
      ")"
    (match extract_param_pattern params_expr with
     | .error e => (.error (wrap_err "vau: " ctx e), s)
     | .ok pat =>
       match env_param_expr with
       | .nil => (.ok (.oper pat "" body_expr env ""), s)
       | .sym n => (.ok (.oper pat n body_expr env ""), s)
       | _ =>
         (.error (.eval_err "vau: environment parameter must be a symbol"
           ctx), s))
  | _ =>
    (.error (.eval_err
      ("vau: expected 3 arguments (params env-param body), got " ++
        toString args.length)
      ("(vau " ++
        (match args with
         | [] => "? ? ?"
         | [a] => value_to_string a ++ " ? ?"
         | [a, b] => value_to_string a ++ " " ++ value_to_string b ++ " ?"
         | a :: b :: c :: _ =>
           value_to_string a ++ " " ++ value_to_string b ++ " " ++
             value_to_string c) ++ ")")), s)

/-- The `eval` builtin, from `builtins::eval_operative` and its helpers:
evaluates both arguments in the current environment, requires the second to
be an environment, then evaluates the first result in that environment. -/
def eval_operative (ev : EvalFn) (args : List val) (env : Nat)
    (s : interp_state) : Res :=
  match args with
  | [a0, a1] =>
    let ctx := "(eval " ++ value_to_string a0 ++ " " ++ value_to_string a1 ++
      ")"
    (match ev a0 env s with
     | (.ok evaluated_expr, s1) =>
       (match ev a1 env s1 with
        | (.ok env_val, s2) =>
          (match env_val with
           | .envref target => ev evaluated_expr target s2
           | _ =>
             (.error (.eval_err
               ("eval: second argument must evaluate to an environment, got "
                 ++ value_to_string env_val) ctx), s2))
        | (.error e, s2) => (.error (wrap_err "eval: " ctx e), s2))
     | (.error e, s1) => (.error (wrap_err "eval: " ctx e), s1))
  | _ =>
    (.error (.eval_err
      ("eval: expected 2 arguments (expr env), got " ++ toString args.length)
      (two_arg_ctx "eval" args)), s)

/-- Invocation of a user operative, from `operate_operative` in noeval.cpp:
create a fresh environment whose parent is the operative's captured closure
environment, bind the parameters to the unevaluated operands, bind the
environment parameter (when not ignored) to the caller's environment, then
evaluate the body in the fresh environment. -/
def operate_operative (ev : EvalFn) (params : param_pattern)
    (env_param : String) (body : val) (closure_env : Nat) (operands : val)
    (env : Nat) (s : interp_state) : Res :=
  let (new_env, s1) := alloc_env s (some closure_env)
  match bind_parameters params operands new_env s1 with
  | .error e => (.error e, s1)
  | .ok s2 =>
    let s3 :=
      if env_param = "" then s2
      else env_define s2 new_env env_param (.envref env)
    ev body new_env s3

/-- Builtin dispatch on the collected operand list. -/
def apply_builtin (ev : EvalFn) (f : Nat) (b : builtin_id) (args : List val)
    (env : Nat) (s : interp_state) : Res :=
  match b with
  | .vauB => vau_operative args env s
  | .evalB => eval_operative ev args env s
  | .defineB => define_operative ev args env s
  | .doB => do_operative ev args env s
  | .defineMutableB => define_mutable_operative ev args env s
  | .setB => set_operative ev f args env s
  | .eqB => equal_operative ev args env s
  | .minusB => arithmetic_operative ev "-" (· - ·) args env s

/-- Invocation of a builtin, from `operate_builtin` in noeval.cpp: convert
the unevaluated operands to a sequence and pass them with the caller's
environment to the native function. -/
def operate_builtin (ev : EvalFn) (f : Nat) (b : builtin_id)
    (operands : val) (env : Nat) (s : interp_state) : Res :=
  match list_to_vector operands with
  | .error e => (.error e, s)
  | .ok operand_list => apply_builtin ev f b operand_list env s

/-- Combination evaluation, from `eval_operation` in noeval.cpp: if the
operator position already holds an operative value it is used directly,
otherwise it is evaluated; the result must be an operative or builtin. -/
def eval_operation (ev : EvalFn) (f : Nat) (a d : val) (env : Nat)
    (s : interp_state) : Res :=
  let step : Res :=
    match a with
    | .oper _ _ _ _ _ => (.ok a, s)
    | .builtin _ => (.ok a, s)
    | _ => ev a env s
  match step with
  | (.ok op, s1) =>
    (match op with
     | .oper p ep b ce _ => operate_operative ev p ep b ce d env s1
     | .builtin bid => operate_builtin ev f bid d env s1
     | _ =>
       (.error (.eval_err ("Not an operative: " ++ value_to_string op)
         (value_to_string (.pair a d))), s1))
  | (.error e, s1) => (.error e, s1)

/-- The evaluator, from `eval` in noeval.cpp: numbers, strings and nil are
self-evaluating; symbols go through `eval_symbol`; pairs are combinations;
every other value kind raises a cannot-evaluate `evaluation_error`.  The
`eof` branch is modelled from the spec (spec.md 4.4, "Number, String, Nil,
EOF: return unchanged"): the newer evaluator that handles the `eof_object`
alternative is declared via noeval.hpp but its implementation is not under
src/ (the value variant in noeval.cpp has no EOF alternative at all).  The
outer catch re-throws `evaluation_error` unchanged and wraps any other
exception with the rendered expression as context. -/
def eval : Nat → val → Nat → interp_state → Res
  | 0, _, _, s => (.error .out_of_fuel, s)
  | f + 1, expr, env, s =>
    match expr with
    | .num _ => (.ok expr, s)
    | .str _ => (.ok expr, s)
    | .nil => (.ok expr, s)
    | .eof => (.ok expr, s)
    | .sym n => (eval_symbol (f + 1) s env n, s)
    | .pair a d =>
      (match eval_operation (eval f) f a d env s with
       | (.error (.runtime_err m), s1) =>
         (.error (.eval_err m (value_to_string (.pair a d))), s1)
       | r => r)
    | other =>
      (.error (.eval_err ("Cannot evaluate " ++ type_name other)
        (value_to_string other)), s)

/-- Predicate picking out mutable-binding wrappers (the one value kind the
evaluator's symbol path unwraps). -/
def is_mutbind : val → Bool
  | .mutbind _ => true
  | _ => false

/-- Helper for stating unbound-variable facts: the chain of environment ids
from `e` to the root, when the walk terminates within the fuel. -/
def env_chain : Nat → interp_state → Nat → Option (List Nat)
  | 0, _, _ => none
  | f + 1, s, e =>
    match find_env s e with
    | none => none
    | some r =>
      match r.parent with
      | none => some [e]
      | some p => (env_chain f s p).map (e :: ·)

/-- A result of `eval` is never a bare `runtime_err`: the boundary catch in
`eval` wraps every foreign exception into an `evaluation_error`. -/
theorem eval_result_not_runtime (f : Nat) (e : val) (env : Nat)
    (s : interp_state) (m : String) :
    (eval f e env s).1 ≠ .error (.runtime_err m) := by
  cases f with
  | zero => simp [eval]
  | succ f =>
    cases e with
    | sym n =>
      simp only [eval]
      unfold eval_symbol
      cases h : lookup (f + 1) s env n with
      | ok v => cases v <;> simp <;> (cases find_cell s _ <;> simp)
      | error err => cases err <;> simp
    | pair a d =>
      simp only [eval]
      rcases h : eval_operation (eval f) f a d env s with ⟨r, s1⟩
      cases r with
      | ok v => simp
      | error err => cases err <;> simp
    | _ => simp [eval]

/-- The builtins' catch blocks leave errors produced by `eval` unchanged
(they only re-wrap foreign exceptions, and `eval` never lets one escape). -/
theorem wrap_err_eval (p c : String) (f : Nat) (x : val) (env : Nat)
    (s : interp_state) (e : interp_err)
    (h : (eval f x env s).1 = .error e) : wrap_err p c e = e := by
  cases e with
  | runtime_err m => exact absurd h (eval_result_not_runtime f x env s m)
  | _ => rfl

/-- C9.  Self-evaluating values: for every Number, String, Nil and EOF value
v and every environment and state, `eval` returns v unchanged and leaves the
state untouched.  The Number/String/Nil branches are the `if constexpr`
self-evaluation cases of `eval` in noeval.cpp; the EOF branch follows the
spec (4.4), the newer evaluator handling `eof_object` being absent from
src/. -/
theorem c9_self_evaluating :
    (∀ (f : Nat) (n : Int) (env : Nat) (s : interp_state),
      eval (f + 1) (.num n) env s = (.ok (.num n), s)) ∧
    (∀ (f : Nat) (t : String) (env : Nat) (s : interp_state),
      eval (f + 1) (.str t) env s = (.ok (.str t), s)) ∧
    (∀ (f : Nat) (env : Nat) (s : interp_state),
      eval (f + 1) .nil env s = (.ok .nil, s)) ∧
    (∀ (f : Nat) (env : Nat) (s : interp_state),
      eval (f + 1) .eof env s = (.ok .eof, s)) := by
  refine ⟨?_, ?_, ?_, ?_⟩ <;> intros <;> rfl

theorem list_to_vector_val_of_list (l : List val) :
    list_to_vector (val_of_list l) = .ok l := by
  induction l with
  | nil => rfl
  | cons x rest ih => simp [val_of_list, list_to_vector, ih, Except.map]

theorem do_loop_cons (ev : EvalFn) (y z : val) (rest : List val) (env : Nat)
    (s : interp_state) :
    do_loop ev (y :: z :: rest) env s =
      (match ev y env s with
       | (.ok _, s1) => do_loop ev (z :: rest) env s1
       | r => r) := by
  rw [do_loop]
  simp

theorem do_loop_append (ev : EvalFn) (ys : List val) (x : val) (env : Nat) :
    ∀ (s s1 : interp_state) (vs : List val),
      eval_each ev ys env s = .ok (vs, s1) →
      do_loop ev (ys ++ [x]) env s = ev x env s1 := by
  induction ys with
  | nil =>
    intro s s1 vs h
    simp only [eval_each, Except.ok.injEq, Prod.mk.injEq] at h
    rw [← h.2]
    rfl
  | cons y ys ih =>
    intro s s1 vs h
    simp only [eval_each] at h
    rcases hy : ev y env s with ⟨r, s2⟩
    rw [hy] at h
    cases r with
    | error e => exact absurd h (by simp)
    | ok v =>
      have h2 : (eval_each ev ys env s2).map
          (fun p => (v :: p.1, p.2)) = .ok (vs, s1) := h
      rcases he : eval_each ev ys env s2 with e2 | p
      · rw [he] at h2
        exact absurd h2 (by simp [Except.map])
      · rcases p with ⟨vs2, s3⟩
        rw [he] at h2
        simp only [Except.map, Except.ok.injEq, Prod.mk.injEq] at h2
        rw [← h2.2]
        rw [List.cons_append]
        obtain ⟨z, zs, hzz⟩ :=
          List.exists_cons_of_ne_nil (show ys ++ [x] ≠ [] by simp)
        rw [hzz, do_loop_cons, hy]
        show do_loop ev (z :: zs) env s2 = ev x env s3
        rw [← hzz]
        exact ih s2 s3 vs2 he

/-- C10.  The `do` builtin: with no operands it returns nil leaving the
state unchanged; with any nonempty operand list it evaluates the operands in
order left to right in the caller's environment, threading the state, and
returns the value of the last one: whenever the leading operands all
evaluate successfully in sequence, the whole `do` form is exactly the
evaluation of the last operand on the threaded state. -/
theorem c10_do_sequencing :
    (∀ (f : Nat) (env : Nat) (s : interp_state),
      eval (f + 1) (.pair (.builtin .doB) .nil) env s = (.ok .nil, s)) ∧
    (∀ (f : Nat) (ys : List val) (x : val) (env : Nat)
      (s s1 : interp_state) (vs : List val),
      eval_each (eval f) ys env s = .ok (vs, s1) →
      eval (f + 1) (.pair (.builtin .doB) (val_of_list (ys ++ [x]))) env s =
        eval f x env s1) := by
  constructor
  · intro f env s; rfl
  · intro f ys x env s s1 vs h
    have hdl := do_loop_append (eval f) ys x env s s1 vs h
    obtain ⟨z, zs, hzz⟩ :=
      List.exists_cons_of_ne_nil (show ys ++ [x] ≠ [] by simp)
    rw [hzz] at hdl ⊢
    simp only [eval, eval_operation, operate_builtin,
      list_to_vector_val_of_list, Except.map, apply_builtin, do_operative,
      hdl]
    rcases h2 : eval f x env s1 with ⟨r, s2⟩
    cases r with
    | ok w => rfl
    | error e =>
      have he : (eval f x env s1).1 = .error e := by rw [h2]
      cases e with
      | runtime_err m =>
        exact absurd he (eval_result_not_runtime f x env s1 m)
      | _ => rfl

/-- Witness for C10: `(do (define z 3) 1 z)` (three operands) evaluates the
define and the literal first, left to right, and then returns the value of
the final symbol on the updated state. -/
theorem c10_witness :
    eval 3 (.pair (.builtin .doB)
      (val_of_list ([.pair (.builtin .defineB)
        (.pair (.sym "z") (.pair (.num 3) .nil)), .num 1] ++ [.sym "z"])))
      0 ⟨[(0, ⟨[], none⟩)], [], 1, 1, []⟩ =
    eval 2 (.sym "z") 0 ⟨[(0, ⟨[("z", .num 3)], none⟩)], [], 1, 1, []⟩ :=
  c10_do_sequencing.2 2
    [.pair (.builtin .defineB) (.pair (.sym "z") (.pair (.num 3) .nil)),
     .num 1] (.sym "z") 0 ⟨[(0, ⟨[], none⟩)], [], 1, 1, []⟩
    ⟨[(0, ⟨[("z", .num 3)], none⟩)], [], 1, 1, []⟩ [.num 3, .num 1]
    (by decide)

/-- C4.  Invoking an operative whose pattern is fixed with an operand count
different from the parameter count fails with the wrong-number-of-arguments
`evaluation_error` carrying the expected and actual counts, and the
resulting state is exactly the input state plus one freshly allocated empty
environment: no operand expression was evaluated, no binding or cell was
touched, so no side-effecting operand ran and the body was never reached. -/
theorem c4_arity_mismatch_before_eval (f : Nat) (names : List String)
    (ep : String) (body : val) (ce : Nat) (tg : String) (operands : val)
    (ops : List val) (env : Nat) (s : interp_state)
    (hops : list_to_vector operands = .ok ops)
    (hlen : ops.length ≠ names.length) :
    eval (f + 1)
      (.pair (.oper ⟨false, names⟩ ep body ce tg) operands) env s =
    (.error (.eval_err
      ("Wrong number of arguments: expected " ++ toString names.length ++
        ", got " ++ toString ops.length) ""),
     (alloc_env s (some ce)).2) := by
  simp [eval, eval_operation, operate_operative, bind_parameters, hops, hlen]

/-- Witness for C4: a one-parameter operative applied to two operands. -/
theorem c4_witness :
    eval 1
      (.pair (.oper ⟨false, ["x"]⟩ "e" (.sym "x") 0 "")
        (.pair (.num 1) (.pair (.num 2) .nil))) 0
      ⟨[(0, ⟨[], none⟩)], [], 1, 1, []⟩ =
    (.error (.eval_err "Wrong number of arguments: expected 1, got 2" ""),
     (alloc_env ⟨[(0, ⟨[], none⟩)], [], 1, 1, []⟩ (some 0)).2) :=
  c4_arity_mismatch_before_eval 0 ["x"] "e" (.sym "x") 0 ""
    (.pair (.num 1) (.pair (.num 2) .nil)) [.num 1, .num 2] 0
    ⟨[(0, ⟨[], none⟩)], [], 1, 1, []⟩ (by rfl) (by decide)

/-- When every environment on the (terminating) parent chain lacks a
binding for `name`, `lookup` reports the unbound variable as the C++
`runtime_error` does at the root. -/
theorem lookup_unbound (f : Nat) :
    ∀ (s : interp_state) (e : Nat) (ch : List Nat) (name : String),
    env_chain f s e = some ch →
    (∀ i ∈ ch, ∀ r, find_env s i = some r →
      r.bindings.lookup name = none) →
    lookup f s e name =
      .error (.runtime_err ("Unbound variable: " ++ name)) := by
  induction f with
  | zero => intro s e ch name hch; simp [env_chain] at hch
  | succ f ih =>
    intro s e ch name hch hnone
    simp only [env_chain] at hch
    rcases hr : find_env s e with _ | r
    · rw [hr] at hch; simp at hch
    · rw [hr] at hch
      have hch' : (match r.parent with
          | none => some [e]
          | some p => (env_chain f s p).map (e :: ·)) = some ch := hch
      rcases hp : r.parent with _ | p <;> rw [hp] at hch'
      · obtain rfl : [e] = ch := by injection hch'
        simp [lookup, hr, hnone e (by simp) r hr, hp]
      · rcases Option.map_eq_some'.mp hch' with ⟨t, hct, ht⟩
        have he : e ∈ ch := by rw [← ht]; simp
        simp only [lookup, hr, hnone e he r hr, hp]
        refine ih s p t name hct ?_
        intro i hi r2 hr2
        exact hnone i (by rw [← ht]; simp [hi]) r2 hr2

/-- C6.  Lookup searches the local bindings first; on a miss it delegates to
the parent; and for a name bound nowhere on the (terminating) chain,
evaluating the symbol fails with the unbound-variable `evaluation_error`
whose context is the symbol name, leaving the state unchanged. -/
theorem c6_lookup_chain_unbound :
    (∀ (f : Nat) (s : interp_state) (e : Nat) (name : String)
      (r : env_record) (v : val),
      find_env s e = some r → r.bindings.lookup name = some v →
      lookup (f + 1) s e name = .ok v) ∧
    (∀ (f : Nat) (s : interp_state) (e p : Nat) (name : String)
      (r : env_record),
      find_env s e = some r → r.bindings.lookup name = none →
      r.parent = some p →
      lookup (f + 1) s e name = lookup f s p name) ∧
    (∀ (f : Nat) (s : interp_state) (e : Nat) (ch : List Nat)
      (name : String),
      env_chain (f + 1) s e = some ch →
      (∀ i ∈ ch, ∀ r, find_env s i = some r →
        r.bindings.lookup name = none) →
      eval (f + 1) (.sym name) e s =
        (.error (.eval_err ("Unbound variable: " ++ name) name), s)) := by
  refine ⟨?_, ?_, ?_⟩
  · intro f s e name r v hr hv
    simp [lookup, hr, hv]
  · intro f s e p name r hr hv hp
    simp [lookup, hr, hv, hp]
  · intro f s e ch name hch hnone
    have h := lookup_unbound (f + 1) s e ch name hch hnone
    simp [eval, eval_symbol, h]

/-- Witness for C6: the three parts at concrete environments (a two-level
chain with a local hit, a delegated miss, and an unbound name). -/
theorem c6_witness :
    (lookup 1 ⟨[(0, ⟨[("a", .num 1)], none⟩)], [], 1, 1, []⟩ 0 "a" =
      .ok (.num 1)) ∧
    (lookup 2 ⟨[(1, ⟨[], some 0⟩), (0, ⟨[("a", .num 1)], none⟩)], [], 2, 1,
        []⟩ 1 "a" =
      lookup 1 ⟨[(1, ⟨[], some 0⟩), (0, ⟨[("a", .num 1)], none⟩)], [], 2, 1,
        []⟩ 0 "a") ∧
    (eval 1 (.sym "q") 0 ⟨[(0, ⟨[], none⟩)], [], 1, 1, []⟩ =
      (.error (.eval_err "Unbound variable: q" "q"),
       ⟨[(0, ⟨[], none⟩)], [], 1, 1, []⟩)) := by
  refine ⟨?_, ?_, ?_⟩
  · exact c6_lookup_chain_unbound.1 0 _ 0 "a" ⟨[("a", .num 1)], none⟩
      (.num 1) rfl rfl
  · exact c6_lookup_chain_unbound.2.1 1 _ 1 0 "a" ⟨[], some 0⟩ rfl rfl rfl
  · refine c6_lookup_chain_unbound.2.2 0 _ 0 [0] "q" rfl ?_
    intro i hi r hr
    simp only [List.mem_singleton] at hi
    subst hi
    injection hr with h
    subst h
    rfl

/-- C1.  User operative invocation: the body runs in a fresh environment
whose parent is the operative's captured closure environment, with the
parameters bound to the unevaluated operands and the non-ignored environment
parameter bound to the caller's environment.  Part 1: the identity operative
`(vau (x) e x)` returns its operand unevaluated, for every operand
expression (mutable-binding wrappers are excluded: they are runtime cells
the parser can never produce, and the symbol path would unwrap one).
Part 2: `(vau () e e)` returns the caller's environment, showing the
environment parameter is bound to the call-site environment.  Part 3: a
body symbol resolves through the closure environment, not the call-site
environment (the closure binds y to 42, the call site binds y to 99, and 42
is returned).  Part 4: a variadic operative `(vau args e args)` receives the
whole unevaluated operand list. -/
theorem c1_user_operative_invocation :
    (∀ (f env ce : Nat) (s : interp_state) (EXPR : val),
      is_mutbind EXPR = false →
      (eval (f + 2) (.pair (.oper ⟨false, ["x"]⟩ "e" (.sym "x") ce "")
        (.pair EXPR .nil)) env s).1 = .ok EXPR) ∧
    (∀ (f env ce : Nat) (s : interp_state),
      (eval (f + 2) (.pair (.oper ⟨false, []⟩ "e" (.sym "e") ce "")
        .nil) env s).1 = .ok (.envref env)) ∧
    ((eval 3 (.pair (.oper ⟨false, []⟩ "e" (.sym "y") 0 "") .nil) 1
      ⟨[(1, ⟨[("y", .num 99)], none⟩), (0, ⟨[("y", .num 42)], none⟩)],
        [], 2, 1, []⟩).1 = .ok (.num 42)) ∧
    (∀ (f env ce : Nat) (s : interp_state) (operands : val),
      is_mutbind operands = false →
      (eval (f + 2) (.pair (.oper ⟨true, ["args"]⟩ "e" (.sym "args") ce "")
        operands) env s).1 = .ok operands) := by
  refine ⟨?_, ?_, ?_, ?_⟩
  · intro f env ce s EXPR h
    simp +decide [eval, eval_operation, operate_operative, alloc_env,
      bind_parameters, list_to_vector, env_define, find_env, set_env,
      assoc_set, eval_symbol, lookup, List.lookup, Except.map]
    cases EXPR <;> simp_all [is_mutbind]
  · intro f env ce s
    simp +decide [eval, eval_operation, operate_operative, alloc_env,
      bind_parameters, list_to_vector, env_define, find_env, set_env,
      assoc_set, eval_symbol, lookup, List.lookup, Except.map]
  · decide
  · intro f env ce s operands h
    simp +decide [eval, eval_operation, operate_operative, alloc_env,
      bind_parameters, list_to_vector, env_define, find_env, set_env,
      assoc_set, eval_symbol, lookup, List.lookup, Except.map]
    cases operands <;> simp_all [is_mutbind]

/-- Witness for C1: the identity operative returns the combination
`(+ 1 2)` unevaluated, and the variadic collector returns its whole operand
list, both at fuel 2 from a one-environment state. -/
theorem c1_witness :
    ((eval 2 (.pair (.oper ⟨false, ["x"]⟩ "e" (.sym "x") 0 "")
        (.pair (.pair (.sym "+") (.pair (.num 1) (.pair (.num 2) .nil)))
          .nil)) 0 ⟨[(0, ⟨[], none⟩)], [], 1, 1, []⟩).1 =
      .ok (.pair (.sym "+") (.pair (.num 1) (.pair (.num 2) .nil)))) ∧
    ((eval 2 (.pair (.oper ⟨true, ["args"]⟩ "e" (.sym "args") 0 "")
        (.pair (.sym "a") (.pair (.sym "b") .nil))) 0
        ⟨[(0, ⟨[], none⟩)], [], 1, 1, []⟩).1 =
      .ok (.pair (.sym "a") (.pair (.sym "b") .nil))) :=
  ⟨c1_user_operative_invocation.1 0 0 0 ⟨[(0, ⟨[], none⟩)], [], 1, 1, []⟩
      (.pair (.sym "+") (.pair (.num 1) (.pair (.num 2) .nil))) (by decide),
   c1_user_operative_invocation.2.2.2 0 0 0
      ⟨[(0, ⟨[], none⟩)], [], 1, 1, []⟩
      (.pair (.sym "a") (.pair (.sym "b") .nil)) (by decide)⟩

/-- Updating a key that is present makes lookup of that key return the new
value. -/
theorem lookup_assoc_set_self {β : Type} (l : List (Nat × β)) (k : Nat)
    (r' : β) (r : β) (h : l.lookup k = some r) :
    (assoc_set l k r').lookup k = some r' := by
  induction l with
  | nil => simp [List.lookup] at h
  | cons hd tl ih =>
    rcases hd with ⟨a, b⟩
    rw [assoc_set]
    by_cases hk : a = k
    · rw [if_pos hk]
      subst hk
      simp [List.lookup]
    · rw [if_neg hk]
      have hne : (k == a) = false := beq_eq_false_iff_ne.mpr (Ne.symm hk)
      have h2 : tl.lookup k = some r := by
        simpa [List.lookup, hne] using h
      simpa [List.lookup, hne] using ih h2

/-- Updating one key leaves lookups of every other key unchanged. -/
theorem lookup_assoc_set_ne {β : Type} (l : List (Nat × β)) (j k : Nat)
    (r' : β) (h : j ≠ k) :
    (assoc_set l k r').lookup j = l.lookup j := by
  induction l with
  | nil => simp [assoc_set]
  | cons hd tl ih =>
    rcases hd with ⟨a, b⟩
    rw [assoc_set]
    by_cases hk : a = k
    · rw [if_pos hk]
      subst hk
      have hja : (j == a) = false := beq_eq_false_iff_ne.mpr h
      simp [List.lookup, hja]
    · rw [if_neg hk]
      by_cases hja : j = a
      · subst hja; simp [List.lookup]
      · have hja' : (j == a) = false := beq_eq_false_iff_ne.mpr hja
        simp [List.lookup, hja', ih]

/-- The expression tree `(define-mutable n a)` with a numeric literal. -/
def dmcall (n : String) (a : Int) : val :=
  .pair (.builtin .defineMutableB) (.pair (.sym n) (.pair (.num a) .nil))

/-- The expression tree `(set! n b)` with a numeric literal. -/
def setcall (n : String) (b : Int) : val :=
  .pair (.builtin .setB) (.pair (.sym n) (.pair (.num b) .nil))

/-- The expression tree `(define n a)` with a numeric literal. -/
def defcall (n : String) (a : Int) : val :=
  .pair (.builtin .defineB) (.pair (.sym n) (.pair (.num a) .nil))

/-- C5.  Mutable bindings: after `(define-mutable n a)` in any registered
environment, `(set! n b)` succeeds returning b, a subsequent evaluation of
the symbol observes b (the symbol path unwraps the wrapper), while
`Environment.lookup` itself still returns the stored mutable-binding wrapper
as-is; after a plain `(define n a)`, `(set! n b)` fails with the not-mutable
`evaluation_error` leaving the state completely unchanged, and a subsequent
evaluation of the symbol still observes a. -/
theorem c5_mutable_bindings (n : String) (a b : Int) (env : Nat)
    (s : interp_state) (r : env_record) (hr : find_env s env = some r) :
    ((eval 3 (dmcall n a) env s).1 = .ok (.num a)) ∧
    ((eval 3 (setcall n b) env ((eval 3 (dmcall n a) env s).2)).1 =
      .ok (.num b)) ∧
    ((eval 1 (.sym n) env
      ((eval 3 (setcall n b) env ((eval 3 (dmcall n a) env s).2)).2)).1 =
      .ok (.num b)) ∧
    (lookup 1 ((eval 3 (setcall n b) env
        ((eval 3 (dmcall n a) env s).2)).2) env n =
      .ok (.mutbind s.next_cell)) ∧
    (eval 3 (setcall n b) env ((eval 3 (defcall n a) env s).2) =
      (.error (.eval_err
        ("set!: variable \x27" ++ n ++
          "\x27 is not mutable (use define-mutable)")
        ("(set! " ++ n ++ " " ++ toString b ++ ")")),
       (eval 3 (defcall n a) env s).2)) ∧
    ((eval 1 (.sym n) env ((eval 3 (defcall n a) env s).2)).1 =
      .ok (.num a)) := by
  have hr' : s.envs.lookup env = some r := hr
  obtain ⟨S1, e1, hS1e, hS1c⟩ :
      ∃ S1, eval 3 (dmcall n a) env s = (.ok (.num a), S1) ∧
        S1.envs.lookup env = some
          ⟨(n, .mutbind s.next_cell) ::
            r.bindings.filter (fun p => p.1 ≠ n), r.parent⟩ ∧
        S1.cells = (s.next_cell, .num a) :: s.cells := by
    refine ⟨set_env
        { s with
            cells := (s.next_cell, val.num a) :: s.cells
            next_cell := s.next_cell + 1 }
        env
        ⟨(n, .mutbind s.next_cell) :: r.bindings.filter (fun p => p.1 ≠ n),
          r.parent⟩, ?_, ?_, ?_⟩
    · simp [dmcall, eval, eval_operation, operate_builtin, list_to_vector,
        apply_builtin, define_mutable_operative, env_define, find_env,
        alloc_cell, set_env, hr', Except.map]
    · exact lookup_assoc_set_self s.envs env _ r hr'
    · rfl
  obtain ⟨S2, e2, hS2e, hS2c⟩ :
      ∃ S2, eval 3 (setcall n b) env S1 = (.ok (.num b), S2) ∧
        S2.envs.lookup env = some
          ⟨(n, .mutbind s.next_cell) ::
            r.bindings.filter (fun p => p.1 ≠ n), r.parent⟩ ∧
        S2.cells.lookup s.next_cell = some (.num b) := by
    refine ⟨set_cell S1 s.next_cell (.num b), ?_, ?_, ?_⟩
    · simp [setcall, eval, eval_operation, operate_builtin, list_to_vector,
        apply_builtin, set_operative, lookup, find_env, hS1e, List.lookup,
        Except.map]
    · simpa [set_cell] using hS1e
    · simp [set_cell, hS1c, assoc_set, List.lookup]
  obtain ⟨T1, e3, hT1e⟩ :
      ∃ T1, eval 3 (defcall n a) env s = (.ok (.num a), T1) ∧
        T1.envs.lookup env = some
          ⟨(n, .num a) :: r.bindings.filter (fun p => p.1 ≠ n),
            r.parent⟩ := by
    refine ⟨set_env s env
        ⟨(n, .num a) :: r.bindings.filter (fun p => p.1 ≠ n), r.parent⟩,
      ?_, ?_⟩
    · simp [defcall, eval, eval_operation, operate_builtin, list_to_vector,
        apply_builtin, define_operative, env_define, find_env, set_env, hr',
        Except.map]
    · exact lookup_assoc_set_self s.envs env _ r hr'
  refine ⟨by rw [e1], by rw [e1]; rw [e2], ?_, ?_, ?_, ?_⟩
  · rw [e1, e2]
    simp [eval, eval_symbol, lookup, find_env, hS2e, List.lookup, find_cell,
      hS2c]
  · rw [e1, e2]
    simp [lookup, find_env, hS2e, List.lookup]
  · rw [e3]
    simp [setcall, eval, eval_operation, operate_builtin, list_to_vector,
      apply_builtin, set_operative, lookup, find_env, hT1e, List.lookup,
      Except.map, value_to_string, value_to_string_m, tail_dot]
  · rw [e3]
    simp [eval, eval_symbol, lookup, find_env, hT1e, List.lookup]

/-- Witness for C5: the full statement at the name k with values 10 and 20
in a one-environment state. -/
theorem c5_witness :
    ((eval 3 (dmcall "k" 10) 0 ⟨[(0, ⟨[], none⟩)], [], 1, 1, []⟩).1 =
      .ok (.num 10)) ∧
    ((eval 3 (setcall "k" 20) 0
      ((eval 3 (dmcall "k" 10) 0 ⟨[(0, ⟨[], none⟩)], [], 1, 1, []⟩).2)).1 =
      .ok (.num 20)) ∧
    ((eval 1 (.sym "k") 0
      ((eval 3 (setcall "k" 20) 0
        ((eval 3 (dmcall "k" 10) 0
          ⟨[(0, ⟨[], none⟩)], [], 1, 1, []⟩).2)).2)).1 = .ok (.num 20)) ∧
    (lookup 1 ((eval 3 (setcall "k" 20) 0
        ((eval 3 (dmcall "k" 10) 0
          ⟨[(0, ⟨[], none⟩)], [], 1, 1, []⟩).2)).2) 0 "k" =
      .ok (.mutbind 1)) ∧
    (eval 3 (setcall "k" 20) 0
      ((eval 3 (defcall "k" 10) 0 ⟨[(0, ⟨[], none⟩)], [], 1, 1, []⟩).2) =
      (.error (.eval_err
        "set!: variable \x27k\x27 is not mutable (use define-mutable)"
        "(set! k 20)"),
       (eval 3 (defcall "k" 10) 0 ⟨[(0, ⟨[], none⟩)], [], 1, 1, []⟩).2)) ∧
    ((eval 1 (.sym "k") 0
      ((eval 3 (defcall "k" 10) 0
        ⟨[(0, ⟨[], none⟩)], [], 1, 1, []⟩).2)).1 = .ok (.num 10)) :=
  c5_mutable_bindings "k" 10 20 0 ⟨[(0, ⟨[], none⟩)], [], 1, 1, []⟩
    ⟨[], none⟩ rfl

/-- Predicate picking out symbol values. -/
def is_sym : val → Bool
  | .sym _ => true
  | _ => false

/-- The expression tree `(set! x (define y 7))`: a set! whose value operand
carries a side effect. -/
def c8_expr : val :=
  .pair (.builtin .setB) (.pair (.sym "x")
    (.pair (.pair (.builtin .defineB)
      (.pair (.sym "y") (.pair (.num 7) .nil))) .nil))

/-- A state with a single environment immutably binding x to 5. -/
def c8_state : interp_state := ⟨[(0, ⟨[("x", .num 5)], none⟩)], [], 1, 1, []⟩

/-- Counterexample to C8 as stated: `(set! x (define y 7))` against an
immutable binding of x.  The claim says the error is raised without any
side-effecting operand having been evaluated, but `set_operative` evaluates
the value operand before the mutability check: the call fails with the
not-mutable error, yet afterwards y is bound to 7 in the environment — the
side-effecting operand did run. -/
theorem c8_counterexample :
    ((eval 5 c8_expr 0 c8_state).1 =
      .error (.eval_err
        "set!: variable \x27x\x27 is not mutable (use define-mutable)"
        "(set! x (#<builtin-operative:define> y 7))")) ∧
    ((find_env (eval 5 c8_expr 0 c8_state).2 0).map
      (fun r => r.bindings.lookup "y") = some (some (.num 7))) := by
  decide

/-- C8 amended.  Arity and first-argument symbol validation of `define` and
`set!` happen before any operand evaluation (those failures leave the state
untouched, so no side-effecting operand has run), but `set!`\x27s mutability
check runs only after its value operand has been evaluated: on an immutable
binding the not-mutable error is raised with the post-operand state kept, so
a side-effecting value operand does run first. -/
theorem c8_amended :
    (∀ (f : Nat) (a0 a1 : val) (env : Nat) (s : interp_state),
      is_sym a0 = false →
      eval (f + 1) (.pair (.builtin .defineB) (.pair a0 (.pair a1 .nil)))
        env s =
      (.error (.eval_err
        ("define: first argument must be a symbol, got " ++
          value_to_string a0)
        ("(define " ++ value_to_string a0 ++ " " ++ value_to_string a1 ++
          ")")), s)) ∧
    (∀ (f : Nat) (a0 a1 : val) (env : Nat) (s : interp_state),
      is_sym a0 = false →
      eval (f + 1) (.pair (.builtin .setB) (.pair a0 (.pair a1 .nil)))
        env s =
      (.error (.eval_err "set!: first argument must be a symbol"
        ("(set! " ++ value_to_string a0 ++ " " ++ value_to_string a1 ++
          ")")), s)) ∧
    (∀ (f : Nat) (a0 : val) (env : Nat) (s : interp_state),
      eval (f + 1) (.pair (.builtin .defineB) (.pair a0 .nil)) env s =
      (.error (.eval_err
        ("define: expected 2 arguments (symbol value), got " ++
          toString (1 : Nat))
        ("(define " ++ value_to_string a0 ++ ")")), s)) ∧
    (∀ (f : Nat) (n : String) (vexpr v bindv : val) (env : Nat)
      (s s1 : interp_state),
      eval f vexpr env s = (.ok v, s1) →
      lookup f s1 env n = .ok bindv →
      is_mutbind bindv = false →
      eval (f + 1) (.pair (.builtin .setB)
        (.pair (.sym n) (.pair vexpr .nil))) env s =
      (.error (.eval_err
        ("set!: variable \x27" ++ n ++
          "\x27 is not mutable (use define-mutable)")
        ("(set! " ++ n ++ " " ++ value_to_string vexpr ++ ")")), s1)) := by
  refine ⟨?_, ?_, ?_, ?_⟩
  · intro f a0 a1 env s h
    cases a0 <;> simp_all [is_sym, eval, eval_operation, operate_builtin,
      list_to_vector, apply_builtin, define_operative, Except.map]
  · intro f a0 a1 env s h
    cases a0 <;> simp_all [is_sym, eval, eval_operation, operate_builtin,
      list_to_vector, apply_builtin, set_operative, Except.map]
  · intro f a0 env s
    simp [eval, eval_operation, operate_builtin, list_to_vector,
      apply_builtin, define_operative, two_arg_ctx, Except.map]
  · intro f n vexpr v bindv env s s1 hev hlk hmb
    simp only [eval, eval_operation, operate_builtin, list_to_vector,
      apply_builtin, set_operative, Except.map, hev, hlk]
    cases bindv <;> simp_all [is_mutbind, value_to_string, value_to_string_m, tail_dot]

/-- Witness for C8 amended: the symbol check of define with a numeric first
argument leaves the state untouched, and the not-mutable failure of
`(set! x (define y 7))` keeps the state in which y was already bound. -/
theorem c8_witness :
    (eval (0 + 1) (.pair (.builtin .defineB) (.pair (.num 3)
        (.pair (.num 4) .nil))) 0 ⟨[(0, ⟨[], none⟩)], [], 1, 1, []⟩ =
      (.error (.eval_err
        ("define: first argument must be a symbol, got " ++
          value_to_string (.num 3))
        ("(define " ++ value_to_string (.num 3) ++ " " ++
          value_to_string (.num 4) ++ ")")),
       ⟨[(0, ⟨[], none⟩)], [], 1, 1, []⟩)) ∧
    (eval (4 + 1) c8_expr 0 c8_state =
      (.error (.eval_err
        ("set!: variable \x27" ++ "x" ++
          "\x27 is not mutable (use define-mutable)")
        ("(set! " ++ "x" ++ " " ++ value_to_string (.pair
          (.builtin .defineB)
          (.pair (.sym "y") (.pair (.num 7) .nil))) ++ ")")),
       ⟨[(0, ⟨[("y", .num 7), ("x", .num 5)], none⟩)], [], 1, 1, []⟩)) :=
  ⟨c8_amended.1 0 (.num 3) (.num 4) 0 ⟨[(0, ⟨[], none⟩)], [], 1, 1, []⟩
      (by decide),
   c8_amended.2.2.2 4 "x"
      (.pair (.builtin .defineB) (.pair (.sym "y") (.pair (.num 7) .nil)))
      (.num 7) (.num 5) 0 c8_state
      ⟨[(0, ⟨[("y", .num 7), ("x", .num 5)], none⟩)], [], 1, 1, []⟩
      (by decide) (by decide) (by decide)⟩

/-- Modelled from the spec: the structural equality over whole values.  The
friend `operator==(value&, value&)` and `cons_cell::operator==` are declared
in noeval.hpp but have no definition under src/, so the top-level dispatch
(variant alternatives compare only within the same alternative; pairs
compare recursively) follows spec.md 4.1.  The per-alternative comparisons
present in src are taken from the inline operators of noeval.hpp: symbols by
name, operatives equal exactly when this side's tag is non-empty and equal
to the other's (`operative::operator==`, lines 107-111), builtins always
unequal, eof objects always equal, mutable bindings by identity of the
shared cell (`value_ptr` pointer equality), environments by identity
(`std::shared_ptr` equality); numbers and strings compare by value/content
as the C++ `==` on the variant alternatives does. -/
def value_eq : val → val → Bool
  | .num a, .num b => a == b
  | .str a, .str b => a == b
  | .sym a, .sym b => a == b
  | .pair a b, .pair c d => value_eq a c && value_eq b d
  | .oper _ _ _ _ t1, .oper _ _ _ _ t2 => !(t1 == "") && t1 == t2
  | .builtin _, .builtin _ => false
  | .envref a, .envref b => a == b
  | .mutbind a, .mutbind b => a == b
  | .eof, .eof => true
  | .nil, .nil => true
  | _, _ => false

/-- C7.  Structural equality: numbers equal by value, strings and symbols by
content, pairs recursively, Nil and EOF singleton-equal, operatives equal
exactly when both carry the same non-empty tag (structurally identical but
untagged closures never compare equal), builtins never equal, and distinct
environment instances never equal. -/
theorem c7_structural_equality :
    (∀ a b : Int, value_eq (.num a) (.num b) = true ↔ a = b) ∧
    (∀ a b : String, value_eq (.str a) (.str b) = true ↔ a = b) ∧
    (∀ a b : String, value_eq (.sym a) (.sym b) = true ↔ a = b) ∧
    (∀ a b c d : val, value_eq (.pair a b) (.pair c d) =
      (value_eq a c && value_eq b d)) ∧
    (value_eq .nil .nil = true ∧ value_eq .eof .eof = true) ∧
    (∀ (p1 p2 : param_pattern) (e1 e2 : String) (b1 b2 : val)
      (c1 c2 : Nat) (t1 t2 : String),
      value_eq (.oper p1 e1 b1 c1 t1) (.oper p2 e2 b2 c2 t2) = true ↔
        (t1 ≠ "" ∧ t1 = t2)) ∧
    (∀ (p : param_pattern) (e : String) (b : val) (c : Nat),
      value_eq (.oper p e b c "") (.oper p e b c "") = false) ∧
    (∀ b1 b2 : builtin_id, value_eq (.builtin b1) (.builtin b2) = false) ∧
    (∀ i j : Nat, i ≠ j → value_eq (.envref i) (.envref j) = false) := by
  refine ⟨?_, ?_, ?_, ?_, ⟨rfl, rfl⟩, ?_, ?_, ?_, ?_⟩
  · intro a b; simp [value_eq]
  · intro a b; simp [value_eq]
  · intro a b; simp [value_eq]
  · intro a b c d; rfl
  · intro p1 p2 e1 e2 b1 b2 c1 c2 t1 t2
    simp [value_eq]
  · intro p e b c; simp [value_eq]
  · intro b1 b2; rfl
  · intro i j h; simp [value_eq, h]

/-- Witness for C7: tagged operatives with differing bodies compare equal,
distinct environments do not. -/
theorem c7_witness :
    (value_eq (.oper ⟨false, ["x", "y"]⟩ "env" (.sym "x") 0 "true")
      (.oper ⟨false, ["x", "y"]⟩ "env" (.sym "y") 5 "true") = true) ∧
    (value_eq (.envref 0) (.envref 1) = false) :=
  ⟨(c7_structural_equality.2.2.2.2.2.1 ⟨false, ["x", "y"]⟩
      ⟨false, ["x", "y"]⟩ "env" "env" (.sym "x") (.sym "y") 0 5 "true"
      "true").mpr (by decide),
   c7_structural_equality.2.2.2.2.2.2.2.2 0 1 (by decide)⟩

/-- Modelled from the spec: the environment ids and mutable-binding cell ids
a value can reach an environment through (spec.md 4.2 Mark: EnvironmentRef,
the Operative's closure environment, MutableBinding's wrapped value, and a
Pair's car/cdr recursively).  The GC itself (`environment::mark`,
`mark_value`, `mark_environment`, `sweep`, `collect`) is declared in
noeval.hpp but its implementation is not under src/. -/
def value_refs : val → List Nat × List Nat
  | .pair a d =>
      ((value_refs a).1 ++ (value_refs d).1, (value_refs a).2 ++ (value_refs d).2)
  | .oper _ _ _ ce _ => ([ce], [])
  | .envref e => ([e], [])
  | .mutbind c => ([], [c])
  | _ => ([], [])

/-- A node of the heap graph the collector traverses: an environment or a
mutable-binding cell. -/
inductive gcnode where
  | env (e : Nat)
  | cell (c : Nat)
deriving Repr, DecidableEq

/-- The graph nodes named by a pair of reference lists. -/
def refs_nodes : List Nat × List Nat → List gcnode
  | (es, cs) => es.map gcnode.env ++ cs.map gcnode.cell

/-- Modelled from the spec: the immediate successors of a node during the
mark traversal — an environment contributes its parent link and every
binding value's references, a cell contributes its stored value's
references (spec.md 4.2 Mark). -/
def gc_succ (s : interp_state) : gcnode → List gcnode
  | .env e =>
    match s.envs.lookup e with
    | none => []
    | some r =>
      (match r.parent with
       | some p => [gcnode.env p]
       | none => []) ++
      (r.bindings.map (fun b => refs_nodes (value_refs b.2))).flatten
  | .cell c =>
    match s.cells.lookup c with
    | none => []
    | some v => refs_nodes (value_refs v)

/-- The environments with pin count > 0, as graph nodes (spec.md 4.2: mark
starts from every rooted environment). -/
def rooted_nodes (s : interp_state) : List gcnode :=
  (s.roots.filter (fun p => decide (0 < p.2))).map (fun p => gcnode.env p.1)

/-- One round of the mark traversal: add every successor of an already
marked node (the visited set keyed by node identity makes cycles
terminate). -/
def mark_step (s : interp_state) (m : List gcnode) : List gcnode :=
  (m ++ (m.map (gc_succ s)).flatten).dedup

/-- Modelled from the spec: the mark phase — iterate the traversal round
enough times to exhaust the finite registry and cell store (spec.md 4.2
Mark). -/
def mark (s : interp_state) : List gcnode :=
  (mark_step s)^[s.envs.length + s.cells.length + 1] (rooted_nodes s)

/-- Modelled from the spec: `environment::collect` — mark from the rooted
environments, then sweep: every registered environment not visited is
unregistered and freed (spec.md 4.2 Sweep). -/
def collect (s : interp_state) : interp_state :=
  { s with envs :=
      s.envs.filter (fun p => decide (gcnode.env p.1 ∈ mark s)) }

/-- Reachability along the mark traversal's successor relation. -/
def gc_reaches (s : interp_state) (a b : gcnode) : Prop :=
  Relation.ReflTransGen (fun x y => y ∈ gc_succ s x) a b

/-- A successful association-list lookup returns an entry of the list. -/
theorem lookup_mem {α β : Type} [BEq α] [LawfulBEq α] (l : List (α × β))
    (a : α) (b : β) (h : l.lookup a = some b) : (a, b) ∈ l := by
  induction l with
  | nil => simp [List.lookup] at h
  | cons hd tl ih =>
    rcases hd with ⟨a', b'⟩
    by_cases hk : (a == a') = true
    · simp only [List.lookup, hk] at h
      cases h
      have : a = a' := eq_of_beq hk
      subst this
      simp
    · have hk' : (a == a') = false := by simpa using hk
      simp only [List.lookup, hk'] at h
      exact List.mem_cons_of_mem _ (ih h)

/-- Everything ever marked is reachable from a rooted environment: one
round of the traversal only adds successors of already-justified nodes. -/
theorem mark_iterate_sound (s : interp_state) (k : Nat) :
    ∀ m, (∀ n ∈ m, ∃ p ∈ s.roots, 0 < p.2 ∧ gc_reaches s (.env p.1) n) →
    ∀ n ∈ (mark_step s)^[k] m,
      ∃ p ∈ s.roots, 0 < p.2 ∧ gc_reaches s (.env p.1) n := by
  induction k with
  | zero => intro m hm; simpa using hm
  | succ k ih =>
    intro m hm n hn
    rw [Function.iterate_succ_apply] at hn
    refine ih (mark_step s m) ?_ n hn
    intro x hx
    rw [mark_step, List.mem_dedup] at hx
    rcases List.mem_append.mp hx with h | h
    · exact hm x h
    · rcases List.mem_flatten.mp h with ⟨l, hl, hxl⟩
      rcases List.mem_map.mp hl with ⟨y, hy, rfl⟩
      rcases hm y hy with ⟨p, hp, hpin, hre⟩
      exact ⟨p, hp, hpin, hre.tail hxl⟩

/-- The mark set only grows across traversal rounds. -/
theorem mark_iterate_mem (s : interp_state) (k : Nat) :
    ∀ m n, n ∈ m → n ∈ (mark_step s)^[k] m := by
  induction k with
  | zero => intro m n h; simpa using h
  | succ k ih =>
    intro m n h
    rw [Function.iterate_succ_apply]
    refine ih _ n ?_
    rw [mark_step, List.mem_dedup]
    exact List.mem_append.mpr (Or.inl h)

/-- A two-node reference cycle with no external root: environment 0's only
binding is an operative whose closure environment is 0 again. -/
def cyc_state : interp_state :=
  ⟨[(0, ⟨[("o", .oper ⟨false, []⟩ "" (.sym "o") 0 "")], none⟩)],
    [], 1, 1, []⟩

/-- The same cycle with environment 0 pinned once. -/
def cyc_rooted : interp_state :=
  ⟨[(0, ⟨[("o", .oper ⟨false, []⟩ "" (.sym "o") 0 "")], none⟩)],
    [], 1, 1, [(0, 1)]⟩

/-- C3.  Collection: every environment still registered after `collect` is
reachable from an environment whose pin count is positive (so an
environment that is neither rooted nor reachable from a rooted one — cycles
included — is no longer registered); a registered environment with pin
count > 0 is never collected, regardless of reachability; and on the
concrete two-node cycle, collect unregisters the unrooted environment but
keeps it when it is pinned. -/
theorem c3_collect_soundness_and_pins :
    (∀ (s : interp_state) (e : Nat),
      e ∈ (collect s).envs.map Prod.fst →
      ∃ p ∈ s.roots, 0 < p.2 ∧ gc_reaches s (.env p.1) (.env e)) ∧
    (∀ (s : interp_state) (e k : Nat),
      s.roots.lookup e = some k → 0 < k →
      e ∈ s.envs.map Prod.fst →
      e ∈ (collect s).envs.map Prod.fst) ∧
    ((collect cyc_state).envs = []) ∧
    ((collect cyc_rooted).envs =
      [(0, ⟨[("o", .oper ⟨false, []⟩ "" (.sym "o") 0 "")], none⟩)]) := by
  refine ⟨?_, ?_, by decide, by decide⟩
  · intro s e he
    rcases List.mem_map.mp he with ⟨p, hp, rfl⟩
    rcases List.mem_filter.mp hp with ⟨_, hmark⟩
    have hmark' : gcnode.env p.1 ∈ mark s := of_decide_eq_true hmark
    refine mark_iterate_sound s _ (rooted_nodes s) ?_ _ hmark'
    intro n hn
    rcases List.mem_map.mp hn with ⟨q, hq, rfl⟩
    rcases List.mem_filter.mp hq with ⟨hq1, hq2⟩
    exact ⟨q, hq1, of_decide_eq_true hq2, Relation.ReflTransGen.refl⟩
  · intro s e k hlk hpin hreg
    have hmem : (e, k) ∈ s.roots := lookup_mem s.roots e k hlk
    have hrooted : gcnode.env e ∈ rooted_nodes s := by
      refine List.mem_map.mpr ⟨(e, k), ?_, rfl⟩
      exact List.mem_filter.mpr ⟨hmem, decide_eq_true hpin⟩
    have hmark : gcnode.env e ∈ mark s :=
      mark_iterate_mem s _ (rooted_nodes s) _ hrooted
    rcases List.mem_map.mp hreg with ⟨p, hp, rfl⟩
    refine List.mem_map.mpr ⟨p, ?_, rfl⟩
    exact List.mem_filter.mpr ⟨hp, decide_eq_true hmark⟩

/-- Witness for C3: the pinned cycle environment survives collection, and
the sole registered environment after collecting it is reachable from a
pinned root. -/
theorem c3_witness :
    (0 ∈ (collect cyc_rooted).envs.map Prod.fst) ∧
    (∃ p ∈ cyc_rooted.roots, 0 < p.2 ∧
      gc_reaches cyc_rooted (.env p.1) (.env 0)) :=
  ⟨c3_collect_soundness_and_pins.2.1 cyc_rooted 0 1 (by decide) (by decide)
      (by decide),
   c3_collect_soundness_and_pins.1 cyc_rooted 0
      (c3_collect_soundness_and_pins.2.1 cyc_rooted 0 1 (by decide)
        (by decide) (by decide))⟩

end Noeval

namespace Noeval


/-- Modelled from the spec: the continuation type returned by the evaluator
step of the trampoline design declared in noeval.hpp (continuation_type =
variant of tail_call and a plain value). -/
inductive continuation_type where
  | tail_call (expr : val) (env : Nat)
  | ret (v : val)
deriving Repr, DecidableEq

/-- Modelled from the spec: lifts a plain evaluation result into the
continuation type (a completed value, never a tail call). -/
def lift_res (r : Res) : Except interp_err continuation_type × interp_state :=
  (match r.1 with
   | .ok v => .ok (.ret v)
   | .error e => .error e, r.2)

/-- Modelled from the spec: the do builtin under the trampoline evaluates all
but its last operand natively and returns the last operand as a tail call. -/
def do_tramp (ev : EvalFn) : List val → Nat → interp_state →
    Except interp_err continuation_type × interp_state
  | [], _, s => (.ok (.ret .nil), s)
  | [x], env, s => (.ok (.tail_call x env), s)
  | x :: rest, env, s =>
    match ev x env s with
    | (.ok _, s1) => do_tramp ev rest env s1
    | (.error e, s1) => (.error (wrap_err "do: " (do_ctx (x :: rest)) e), s1)

/-- Modelled from the spec: invoking a user operative under the trampoline
binds parameters and the environment parameter, then returns the body and the
new environment as a tail call instead of evaluating the body natively. -/
def operate_operative_tramp (params : param_pattern) (env_param : String)
    (body : val) (closure_env : Nat) (operands : val) (env : Nat)
    (s : interp_state) : Except interp_err continuation_type × interp_state :=
  let (new_env, s1) := alloc_env s (some closure_env)
  match bind_parameters params operands new_env s1 with
  | .error e => (.error e, s1)
  | .ok s2 =>
    let s3 :=
      if env_param = "" then s2
      else env_define s2 new_env env_param (.envref env)
    (.ok (.tail_call body new_env), s3)

/-- Modelled from the spec: one step of the trampolined evaluator. Native
recursion (operator position, builtin argument evaluation) uses the fueled
evaluator with a fixed budget nf; tail positions (operative bodies, the last
expression of do) are returned as tail calls for the driver loop. -/
def tramp_step (nf : Nat) (expr : val) (env : Nat) (s : interp_state) :
    Except interp_err continuation_type × interp_state :=
  match expr with
  | .num _ => (.ok (.ret expr), s)
  | .str _ => (.ok (.ret expr), s)
  | .nil => (.ok (.ret expr), s)
  | .eof => (.ok (.ret expr), s)
  | .sym n =>
    (match eval_symbol nf s env n with
     | .ok v => (.ok (.ret v), s)
     | .error e => (.error e, s))
  | .pair a d =>
    let op_step : Res :=
      match a with
      | .oper _ _ _ _ _ => (.ok a, s)
      | .builtin _ => (.ok a, s)
      | _ => eval nf a env s
    (match op_step with
     | (.ok op, s1) =>
       (match op with
        | .oper p ep b ce _ => operate_operative_tramp p ep b ce d env s1
        | .builtin bid =>
          (match list_to_vector d with
           | .error e => (.error e, s1)
           | .ok args =>
             match bid with
             | .doB => do_tramp (eval nf) args env s1
             | _ => lift_res (apply_builtin (eval nf) nf bid args env s1))
        | _ =>
          (.error (.eval_err ("Not an operative: " ++ value_to_string op)
            (value_to_string (.pair a d))), s1))
     | (.error e, s1) => (.error e, s1))
  | other =>
    (.error (.eval_err ("Cannot evaluate " ++ type_name other)
      (value_to_string other)), s)

/-- Modelled from the spec: the driver loop of the trampoline. The loop
budget L counts trampoline bounces; the native budget nf stays constant
across bounces. -/
def tramp_run (nf : Nat) : Nat → val → Nat → interp_state → Res
  | 0, _, _, s => (.error .out_of_fuel, s)
  | L + 1, expr, env, s =>
    match tramp_step nf expr env s with
    | (.ok (.ret v), s1) => (.ok v, s1)
    | (.ok (.tail_call e2 en2), s1) => tramp_run nf L e2 en2 s1
    | (.error (.runtime_err m), s1) =>
      (.error (.eval_err m (value_to_string expr)), s1)
    | (.error e, s1) => (.error e, s1)

def minuse : val := .pair (.sym "-") (.pair (.sym "k") (.pair (.num 1) .nil))
def sete : val := .pair (.sym "set!") (.pair (.sym "k") (.pair minuse .nil))
def eqc : val := .pair (.sym "=") (.pair (.sym "k") (.pair (.num 0) .nil))
def selc : val := .pair eqc (.pair (.sym "stop") (.pair (.sym "step") .nil))
def cd_body : val := .pair selc .nil
def cd_call : val := .pair (.sym "cd") .nil
def step_body : val := .pair (.sym "do") (.pair sete (.pair cd_call .nil))
def cd_op : val := .oper ⟨false, []⟩ "e" cd_body 0 ""
def step_op : val := .oper ⟨false, []⟩ "e" step_body 0 ""
def stop_op : val := .oper ⟨false, []⟩ "e" (.num 0) 0 ""

def g_rec : env_record := ⟨[
  ("k", .mutbind 0), ("cd", cd_op), ("step", step_op), ("stop", stop_op),
  ("=", .builtin .eqB), ("-", .builtin .minusB), ("do", .builtin .doB),
  ("set!", .builtin .setB), ("eval", .builtin .evalB)], none⟩

/-- A countdown program state: the global environment g_rec holding the
counter cell k, the operatives cd, step, stop, and the builtins they use;
cell 0 holds the counter value N. -/
def cd_init (N : Nat) : interp_state :=
  ⟨[(0, g_rec)], [(0, .num (N : Int))], 1, 1, []⟩

theorem sym_chain (F : Nat) (s : interp_state) (e p : Nat) (name : String)
    (v : val)
    (h0 : s.envs.lookup 0 = some g_rec)
    (he : s.envs.lookup e = some ⟨[("e", .envref p)], some 0⟩)
    (hne : (name == "e") = false)
    (hv : List.lookup name g_rec.bindings = some v)
    (hmb : is_mutbind v = false) :
    eval (F + 2) (.sym name) e s = (.ok v, s) := by
  have hl : lookup (F + 2) s e name = .ok v := by
    rw [show F + 2 = (F + 1) + 1 from rfl, lookup]
    simp only [find_env, he]
    simp only [List.lookup, hne]
    rw [lookup]
    simp only [find_env, h0, hv]
  rw [show F + 2 = (F + 1) + 1 from rfl, eval]
  simp only [eval_symbol, show (F:Nat) + 1 + 1 = F + 2 from rfl, hl]
  cases v <;> simp_all [is_mutbind]

theorem lookup_k (F : Nat) (s : interp_state) (e p : Nat)
    (h0 : s.envs.lookup 0 = some g_rec)
    (he : s.envs.lookup e = some ⟨[("e", .envref p)], some 0⟩) :
    lookup (F + 2) s e "k" = .ok (.mutbind 0) := by
  rw [show F + 2 = (F + 1) + 1 from rfl, lookup]
  simp only [find_env, he]
  simp only [List.lookup, show (("k" : String) == "e") = false from rfl]
  rw [lookup]
  simp only [find_env, h0]
  rfl

theorem sym_k (F : Nat) (s : interp_state) (e p : Nat) (M : Int)
    (h0 : s.envs.lookup 0 = some g_rec)
    (he : s.envs.lookup e = some ⟨[("e", .envref p)], some 0⟩)
    (hc : s.cells.lookup 0 = some (.num M)) :
    eval (F + 2) (.sym "k") e s = (.ok (.num M), s) := by
  have hl := lookup_k F s e p h0 he
  rw [show F + 2 = (F + 1) + 1 from rfl, eval]
  simp only [eval_symbol, show (F:Nat) + 1 + 1 = F + 2 from rfl, hl,
    find_cell, hc]

theorem eqc_eval (F : Nat) (s : interp_state) (e p : Nat) (M : Int)
    (h0 : s.envs.lookup 0 = some g_rec)
    (he : s.envs.lookup e = some ⟨[("e", .envref p)], some 0⟩)
    (hc : s.cells.lookup 0 = some (.num M)) :
    eval (F + 3) eqc e s =
      (.ok (if M = 0 then church_true e else church_false e), s) := by
  have hop : eval (F + 2) (.sym "=") e s = (.ok (.builtin .eqB), s) :=
    sym_chain F s e p "=" (.builtin .eqB) h0 he rfl rfl rfl
  have hk : eval (F + 2) (.sym "k") e s = (.ok (.num M), s) :=
    sym_k F s e p M h0 he hc
  rw [show F + 3 = (F + 2) + 1 from rfl]
  simp only [eqc]
  rw [eval]
  simp only [eval_operation, hop, operate_builtin, list_to_vector,
    Except.map, apply_builtin, equal_operative, hk]
  rw [show F + 2 = (F + 1) + 1 from rfl]
  simp only [eval]


theorem minuse_eval (F : Nat) (s : interp_state) (e p : Nat) (M : Int)
    (h0 : s.envs.lookup 0 = some g_rec)
    (he : s.envs.lookup e = some ⟨[("e", .envref p)], some 0⟩)
    (hc : s.cells.lookup 0 = some (.num M)) :
    eval (F + 4) minuse e s = (.ok (.num (M - 1)), s) := by
  have hop : eval (F + 1 + 2) (.sym "-") e s =
      (.ok (.builtin .minusB), s) :=
    sym_chain (F + 1) s e p "-" (.builtin .minusB) h0 he rfl rfl rfl
  have hk : eval (F + 1 + 2) (.sym "k") e s = (.ok (.num M), s) :=
    sym_k (F + 1) s e p M h0 he hc
  rw [show F + 4 = (F + 3) + 1 from rfl]
  simp only [minuse]
  rw [eval]
  rw [show F + 3 = F + 1 + 2 from rfl]
  simp only [eval_operation, hop, operate_builtin, list_to_vector,
    Except.map, apply_builtin, arithmetic_operative, hk, arith_fold]
  rw [show F + 1 + 2 = (F + 2) + 1 from rfl]
  simp only [eval]

theorem sete_eval (F : Nat) (s : interp_state) (e p : Nat) (M : Int)
    (h0 : s.envs.lookup 0 = some g_rec)
    (he : s.envs.lookup e = some ⟨[("e", .envref p)], some 0⟩)
    (hc : s.cells.lookup 0 = some (.num M)) :
    eval (F + 5) sete e s =
      (.ok (.num (M - 1)), set_cell s 0 (.num (M - 1))) := by
  have hop : eval (F + 2 + 2) (.sym "set!") e s =
      (.ok (.builtin .setB), s) :=
    sym_chain (F + 2) s e p "set!" (.builtin .setB) h0 he rfl rfl rfl
  have hm : eval (F + 4) minuse e s = (.ok (.num (M - 1)), s) :=
    minuse_eval F s e p M h0 he hc
  have hl : lookup (F + 2 + 2) s e "k" = .ok (.mutbind 0) :=
    lookup_k (F + 2) s e p h0 he
  rw [show F + 5 = (F + 4) + 1 from rfl]
  simp only [sete]
  rw [eval]
  rw [show F + 4 = F + 2 + 2 from rfl] at hm ⊢
  simp only [eval_operation, hop, operate_builtin, list_to_vector,
    Except.map, apply_builtin, set_operative, hm, hl]

/-- The environment record created when a Church boolean produced by the
`=` builtin is invoked on the two selector operands of the countdown. -/
def chrec (e : Nat) : env_record :=
  ⟨[("env", .envref e), ("y", .sym "step"), ("x", .sym "stop")], some e⟩

/-- The state after that invocation allocated its parameter environment. -/
def chstate (s : interp_state) (e : Nat) : interp_state :=
  { s with envs := (s.next_env, chrec e) :: s.envs,
           next_env := s.next_env + 1 }

theorem lookup_succ (f : Nat) (s : interp_state) (e : Nat) (name : String) :
    lookup (f + 1) s e name =
      (match find_env s e with
      | none => .error (.bad_state "unregistered environment")
      | some r =>
        match r.bindings.lookup name with
        | some v => .ok v
        | none =>
          match r.parent with
          | some p => lookup f s p name
          | none =>
            .error (.runtime_err ("Unbound variable: " ++ name))) := by
  rw [lookup]

theorem church_body_eval_y (F : Nat) (s : interp_state) (e p : Nat)
    (h0 : s.envs.lookup 0 = some g_rec)
    (he : s.envs.lookup e = some ⟨[("e", .envref p)], some 0⟩)
    (f1 : ((0 : Nat) == s.next_env) = false)
    (f2 : (e == s.next_env) = false) :
    eval (F + 7) (make_eval_expression "y") s.next_env (chstate s e) =
      (.ok step_op, chstate s e) := by
  have h0SC : (chstate s e).envs.lookup 0 = some g_rec := by
    simp [chstate, List.lookup, f1, h0]
  have heSC : (chstate s e).envs.lookup e =
      some ⟨[("e", .envref p)], some 0⟩ := by
    simp [chstate, List.lookup, f2, he]
  have hev : eval (F + 6) (.sym "eval") s.next_env (chstate s e) =
      (.ok (.builtin .evalB), chstate s e) := by
    rw [show F + 6 = (F + 5) + 1 from rfl, eval]
    have hl : lookup ((F + 5) + 1) (chstate s e) s.next_env "eval" =
        .ok (.builtin .evalB) := by
      rw [lookup_succ]
      simp only [find_env, chstate, chrec, List.lookup, beq_self_eq_true,
        show (("eval" : String) == "env") = false from rfl,
        show (("eval" : String) == "y") = false from rfl,
        show (("eval" : String) == "x") = false from rfl,
        show F + 5 = (F + 4) + 1 from rfl]
      rw [lookup_succ]
      simp only [find_env, List.lookup, f2, he,
        show (("eval" : String) == "e") = false from rfl,
        show F + 4 = (F + 3) + 1 from rfl]
      rw [lookup_succ]
      simp only [find_env, List.lookup, f1, h0]
      rfl
    simp only [eval_symbol, hl]
  have hloc : eval (F + 6) (.sym "y") s.next_env (chstate s e) =
      (.ok (.sym "step"), chstate s e) := by
    rw [show F + 6 = (F + 5) + 1 from rfl, eval]
    have hl : lookup ((F + 5) + 1) (chstate s e) s.next_env "y" =
        .ok (.sym "step") := by
      rw [lookup_succ]
      simp only [find_env, chstate, chrec, List.lookup, beq_self_eq_true]
      try rfl
    simp only [eval_symbol, hl]
  have henv : eval (F + 6) (.sym "env") s.next_env (chstate s e) =
      (.ok (.envref e), chstate s e) := by
    rw [show F + 6 = (F + 5) + 1 from rfl, eval]
    have hl : lookup ((F + 5) + 1) (chstate s e) s.next_env "env" =
        .ok (.envref e) := by
      rw [lookup_succ]
      simp only [find_env, chstate, chrec, List.lookup, beq_self_eq_true]
      try rfl
    simp only [eval_symbol, hl]
  have htgt : eval (F + 6) (.sym "step") e (chstate s e) =
      (.ok step_op, chstate s e) := by
    have := sym_chain (F + 4) (chstate s e) e p "step" step_op h0SC heSC
      rfl rfl rfl
    rwa [show (F + 4) + 2 = F + 6 from rfl] at this
  rw [show F + 7 = (F + 6) + 1 from rfl]
  simp only [make_eval_expression]
  rw [eval]
  simp only [eval_operation, hev, operate_builtin, list_to_vector,
    Except.map, apply_builtin, eval_operative, hloc, henv, htgt]

theorem church_body_eval_x (F : Nat) (s : interp_state) (e p : Nat)
    (h0 : s.envs.lookup 0 = some g_rec)
    (he : s.envs.lookup e = some ⟨[("e", .envref p)], some 0⟩)
    (f1 : ((0 : Nat) == s.next_env) = false)
    (f2 : (e == s.next_env) = false) :
    eval (F + 7) (make_eval_expression "x") s.next_env (chstate s e) =
      (.ok stop_op, chstate s e) := by
  have h0SC : (chstate s e).envs.lookup 0 = some g_rec := by
    simp [chstate, List.lookup, f1, h0]
  have heSC : (chstate s e).envs.lookup e =
      some ⟨[("e", .envref p)], some 0⟩ := by
    simp [chstate, List.lookup, f2, he]
  have hev : eval (F + 6) (.sym "eval") s.next_env (chstate s e) =
      (.ok (.builtin .evalB), chstate s e) := by
    rw [show F + 6 = (F + 5) + 1 from rfl, eval]
    have hl : lookup ((F + 5) + 1) (chstate s e) s.next_env "eval" =
        .ok (.builtin .evalB) := by
      rw [lookup_succ]
      simp only [find_env, chstate, chrec, List.lookup, beq_self_eq_true,
        show (("eval" : String) == "env") = false from rfl,
        show (("eval" : String) == "y") = false from rfl,
        show (("eval" : String) == "x") = false from rfl,
        show F + 5 = (F + 4) + 1 from rfl]
      rw [lookup_succ]
      simp only [find_env, List.lookup, f2, he,
        show (("eval" : String) == "e") = false from rfl,
        show F + 4 = (F + 3) + 1 from rfl]
      rw [lookup_succ]
      simp only [find_env, List.lookup, f1, h0]
      rfl
    simp only [eval_symbol, hl]
  have hloc : eval (F + 6) (.sym "x") s.next_env (chstate s e) =
      (.ok (.sym "stop"), chstate s e) := by
    rw [show F + 6 = (F + 5) + 1 from rfl, eval]
    have hl : lookup ((F + 5) + 1) (chstate s e) s.next_env "x" =
        .ok (.sym "stop") := by
      rw [lookup_succ]
      simp only [find_env, chstate, chrec, List.lookup, beq_self_eq_true]
      try rfl
    simp only [eval_symbol, hl]
  have henv : eval (F + 6) (.sym "env") s.next_env (chstate s e) =
      (.ok (.envref e), chstate s e) := by
    rw [show F + 6 = (F + 5) + 1 from rfl, eval]
    have hl : lookup ((F + 5) + 1) (chstate s e) s.next_env "env" =
        .ok (.envref e) := by
      rw [lookup_succ]
      simp only [find_env, chstate, chrec, List.lookup, beq_self_eq_true]
      try rfl
    simp only [eval_symbol, hl]
  have htgt : eval (F + 6) (.sym "stop") e (chstate s e) =
      (.ok stop_op, chstate s e) := by
    have := sym_chain (F + 4) (chstate s e) e p "stop" stop_op h0SC heSC
      rfl rfl rfl
    rwa [show (F + 4) + 2 = F + 6 from rfl] at this
  rw [show F + 7 = (F + 6) + 1 from rfl]
  simp only [make_eval_expression]
  rw [eval]
  simp only [eval_operation, hev, operate_builtin, list_to_vector,
    Except.map, apply_builtin, eval_operative, hloc, henv, htgt]


theorem selc_eval_step (F : Nat) (s : interp_state) (e p : Nat) (M : Int)
    (h0 : s.envs.lookup 0 = some g_rec)
    (he : s.envs.lookup e = some ⟨[("e", .envref p)], some 0⟩)
    (hc : s.cells.lookup 0 = some (.num M)) (hM : ¬ M = 0)
    (f1 : ((0 : Nat) == s.next_env) = false)
    (f2 : (e == s.next_env) = false) :
    eval (F + 9) selc e s = (.ok step_op, chstate s e) := by
  have hq := eqc_eval (F + 5) s e p M h0 he hc
  rw [if_neg hM] at hq
  simp only [eqc] at hq
  have hbody := church_body_eval_y (F + 1) s e p h0 he f1 f2
  rw [show (F + 1) + 7 = F + 8 from rfl] at hbody
  rw [show F + 9 = (F + 8) + 1 from rfl]
  simp only [selc, eqc]
  rw [eval]
  rw [show F + 8 = F + 5 + 3 from rfl]
  simp only [eval_operation, hq, church_false, operate_operative,
    alloc_env, bind_parameters, list_to_vector, Except.map, List.zip,
    List.zipWith, List.foldl, env_define, find_env, set_env, assoc_set,
    List.lookup, beq_self_eq_true]
  simp +decide [List.filter, assoc_set, chstate, chrec]
  rw [show F + 8 = F + 5 + 3 from rfl] at hbody
  simp only [chstate, chrec] at hbody
  rw [hbody]

theorem selc_eval_stop (F : Nat) (s : interp_state) (e p : Nat) (M : Int)
    (h0 : s.envs.lookup 0 = some g_rec)
    (he : s.envs.lookup e = some ⟨[("e", .envref p)], some 0⟩)
    (hc : s.cells.lookup 0 = some (.num M)) (hM : M = 0)
    (f1 : ((0 : Nat) == s.next_env) = false)
    (f2 : (e == s.next_env) = false) :
    eval (F + 9) selc e s = (.ok stop_op, chstate s e) := by
  have hq := eqc_eval (F + 5) s e p M h0 he hc
  rw [if_pos hM] at hq
  simp only [eqc] at hq
  have hbody := church_body_eval_x (F + 1) s e p h0 he f1 f2
  rw [show (F + 1) + 7 = F + 8 from rfl] at hbody
  rw [show F + 9 = (F + 8) + 1 from rfl]
  simp only [selc, eqc]
  rw [eval]
  rw [show F + 8 = F + 5 + 3 from rfl]
  simp only [eval_operation, hq, church_true, operate_operative,
    alloc_env, bind_parameters, list_to_vector, Except.map, List.zip,
    List.zipWith, List.foldl, env_define, find_env, set_env, assoc_set,
    List.lookup, beq_self_eq_true]
  simp +decide [List.filter, assoc_set, chstate, chrec]
  rw [show F + 8 = F + 5 + 3 from rfl] at hbody
  simp only [chstate, chrec] at hbody
  rw [hbody]

theorem tramp_run_succ (nf L : Nat) (expr : val) (env : Nat)
    (s : interp_state) :
    tramp_run nf (L + 1) expr env s =
      (match tramp_step nf expr env s with
      | (.ok (.ret v), s1) => (.ok v, s1)
      | (.ok (.tail_call e2 en2), s1) => tramp_run nf L e2 en2 s1
      | (.error (.runtime_err m), s1) =>
        (.error (.eval_err m (value_to_string expr)), s1)
      | (.error e, s1) => (.error e, s1)) := by
  rw [tramp_run]

/-- The state after a parameterless operative with closure environment 0 and
environment parameter e has been entered from environment e. -/
def bstate2 (s : interp_state) (e : Nat) : interp_state :=
  { s with envs := (s.next_env, ⟨[("e", .envref e)], some 0⟩) :: s.envs,
           next_env := s.next_env + 1 }

theorem cdbody_step_tail (s : interp_state) (e p : Nat) (M : Int)
    (h0 : s.envs.lookup 0 = some g_rec)
    (he : s.envs.lookup e = some ⟨[("e", .envref p)], some 0⟩)
    (hc : s.cells.lookup 0 = some (.num M)) (hM : ¬ M = 0)
    (f1 : ((0 : Nat) == s.next_env) = false)
    (f2 : (e == s.next_env) = false) :
    tramp_step 10 cd_body e s =
      (.ok (.tail_call step_body (s.next_env + 1)),
       bstate2 (chstate s e) e) := by
  have hsel := selc_eval_step 1 s e p M h0 he hc hM f1 f2
  rw [show (1 : Nat) + 9 = 10 from rfl] at hsel
  simp only [cd_body, tramp_step, selc, eqc]
  simp only [selc, eqc] at hsel
  simp only [hsel, step_op, operate_operative_tramp, alloc_env,
    bind_parameters, list_to_vector, Except.map, env_define, find_env,
    set_env, assoc_set, List.lookup, beq_self_eq_true, bstate2, chstate,
    chrec]
  simp +decide
  simp [assoc_set]

theorem cdbody_step_stop (s : interp_state) (e p : Nat) (M : Int)
    (h0 : s.envs.lookup 0 = some g_rec)
    (he : s.envs.lookup e = some ⟨[("e", .envref p)], some 0⟩)
    (hc : s.cells.lookup 0 = some (.num M)) (hM : M = 0)
    (f1 : ((0 : Nat) == s.next_env) = false)
    (f2 : (e == s.next_env) = false) :
    tramp_step 10 cd_body e s =
      (.ok (.tail_call (.num 0) (s.next_env + 1)),
       bstate2 (chstate s e) e) := by
  have hsel := selc_eval_stop 1 s e p M h0 he hc hM f1 f2
  rw [show (1 : Nat) + 9 = 10 from rfl] at hsel
  simp only [cd_body, tramp_step, selc, eqc]
  simp only [selc, eqc] at hsel
  simp only [hsel, stop_op, operate_operative_tramp, alloc_env,
    bind_parameters, list_to_vector, Except.map, env_define, find_env,
    set_env, assoc_set, List.lookup, beq_self_eq_true, bstate2, chstate,
    chrec]
  simp +decide
  simp [assoc_set]

theorem stepbody_step (s : interp_state) (e p : Nat) (M : Int)
    (h0 : s.envs.lookup 0 = some g_rec)
    (he : s.envs.lookup e = some ⟨[("e", .envref p)], some 0⟩)
    (hc : s.cells.lookup 0 = some (.num M)) :
    tramp_step 10 step_body e s =
      (.ok (.tail_call cd_call e), set_cell s 0 (.num (M - 1))) := by
  have hdo := sym_chain 8 s e p "do" (.builtin .doB) h0 he rfl rfl rfl
  rw [show (8 : Nat) + 2 = 10 from rfl] at hdo
  have hst := sete_eval 5 s e p M h0 he hc
  rw [show (5 : Nat) + 5 = 10 from rfl] at hst
  simp only [step_body, tramp_step, hdo, list_to_vector, Except.map,
    do_tramp, hst]

theorem cdcall_step (s : interp_state) (e : Nat)
    (hcd : eval 10 (.sym "cd") e s = (.ok cd_op, s)) :
    tramp_step 10 cd_call e s =
      (.ok (.tail_call cd_body s.next_env), bstate2 s e) := by
  simp only [cd_call, tramp_step, hcd, cd_op, operate_operative_tramp,
    alloc_env, bind_parameters, list_to_vector, Except.map, List.zip,
    List.zipWith, List.foldl, env_define, find_env, set_env, assoc_set,
    List.lookup, beq_self_eq_true, bstate2]
  simp +decide
  simp [assoc_set]

theorem cd_loop (m : Nat) : ∀ (s : interp_state) (e p : Nat),
    s.envs.lookup 0 = some g_rec →
    s.cells.lookup 0 = some (.num (m : Int)) →
    s.envs.lookup e = some ⟨[("e", .envref p)], some 0⟩ →
    0 < s.next_env → e < s.next_env →
    (tramp_run 10 (3 * m + 2) cd_body e s).1 = .ok (.num 0) := by
  induction m with
  | zero =>
    intro s e p h0 hc he hn hen
    have f1 : ((0 : Nat) == s.next_env) = false :=
      beq_eq_false_iff_ne.mpr (by omega)
    have f2 : (e == s.next_env) = false :=
      beq_eq_false_iff_ne.mpr (by omega)
    have hA := cdbody_step_stop s e p ((0 : Nat) : Int) h0 he hc rfl f1 f2
    rw [show 3 * 0 + 2 = 1 + 1 from rfl, tramp_run_succ]
    simp only [hA]
    rw [show (1 : Nat) = 0 + 1 from rfl, tramp_run_succ]
    simp only [tramp_step]
  | succ m ih =>
    intro s e p h0 hc he hn hen
    have f1 : ((0 : Nat) == s.next_env) = false :=
      beq_eq_false_iff_ne.mpr (by omega)
    have f2 : (e == s.next_env) = false :=
      beq_eq_false_iff_ne.mpr (by omega)
    have f3 : ((0 : Nat) == s.next_env + 1) = false :=
      beq_eq_false_iff_ne.mpr (by omega)
    have f4 : ((0 : Nat) == s.next_env + 1 + 1) = false :=
      beq_eq_false_iff_ne.mpr (by omega)
    have hM : ¬ ((m + 1 : Nat) : Int) = 0 := by omega
    have hA := cdbody_step_tail s e p ((m + 1 : Nat) : Int) h0 he hc hM f1 f2
    rw [show 3 * (m + 1) + 2 = (3 * m + 4) + 1 by ring, tramp_run_succ]
    simp only [hA]
    have h0b : (bstate2 (chstate s e) e).envs.lookup 0 = some g_rec := by
      simp only [bstate2, chstate, chrec, List.lookup, f3, f1]
      exact h0
    have heb : (bstate2 (chstate s e) e).envs.lookup (s.next_env + 1) =
        some ⟨[("e", .envref e)], some 0⟩ := by
      simp [bstate2, chstate, List.lookup]
    have hcb : (bstate2 (chstate s e) e).cells.lookup 0 =
        some (.num ((m + 1 : Nat) : Int)) := by
      simp only [bstate2, chstate]
      exact hc
    have hB := stepbody_step (bstate2 (chstate s e) e) (s.next_env + 1) e
      ((m + 1 : Nat) : Int) h0b heb hcb
    have hsub : ((m + 1 : Nat) : Int) - 1 = (m : Int) := by omega
    rw [hsub] at hB
    rw [show 3 * m + 4 = (3 * m + 3) + 1 from rfl, tramp_run_succ]
    simp only [hB]
    have h0c : (set_cell (bstate2 (chstate s e) e) 0
        (.num (m : Int))).envs.lookup 0 = some g_rec := by
      simp only [set_cell]
      exact h0b
    have hec : (set_cell (bstate2 (chstate s e) e) 0
        (.num (m : Int))).envs.lookup (s.next_env + 1) =
        some ⟨[("e", .envref e)], some 0⟩ := by
      simp only [set_cell]
      exact heb
    have hcd := sym_chain 8 (set_cell (bstate2 (chstate s e) e) 0
      (.num (m : Int))) (s.next_env + 1) e "cd" cd_op h0c hec rfl rfl rfl
    rw [show (8 : Nat) + 2 = 10 from rfl] at hcd
    have hC := cdcall_step _ _ hcd
    rw [show 3 * m + 3 = (3 * m + 2) + 1 from rfl, tramp_run_succ]
    simp only [hC]
    refine ih (bstate2 (set_cell (bstate2 (chstate s e) e) 0
        (.num (m : Int))) (s.next_env + 1))
      ((set_cell (bstate2 (chstate s e) e) 0 (.num (m : Int))).next_env)
      (s.next_env + 1) ?_ ?_ ?_ ?_ ?_
    · simp only [bstate2, set_cell, chstate, chrec, List.lookup, f4, f3, f1]
      exact h0
    · simp only [bstate2, set_cell, chstate]
      exact lookup_assoc_set_self s.cells 0 _ _ hc
    · simp [bstate2, set_cell, chstate, List.lookup]
    · simp only [bstate2, set_cell, chstate]
      omega
    · simp only [bstate2, set_cell, chstate]
      omega

/-- C2: Evaluation in tail position does not recurse natively. Under the
trampolined evaluator modelled from the spec, the body of a user operative
and the last expression of do are returned as tail calls that the driver
loop re-enters. Consequently a self-referential tail-recursive user
operative counting down from N completes, for every N, with the native
evaluation budget held at the constant 10 while only the trampoline bounce
count 3N+3 grows with N: native stack growth is bounded by the non-tail
nesting depth of the program, not by N. -/
theorem c2_tail_call_trampoline (N : Nat) :
    (tramp_run 10 (3 * N + 3) cd_call 0 (cd_init N)).1 = .ok (.num 0) := by
  have hcd0 : eval 10 (.sym "cd") 0 (cd_init N) = (.ok cd_op, cd_init N) :=
    rfl
  have hC := cdcall_step (cd_init N) 0 hcd0
  rw [show 3 * N + 3 = (3 * N + 2) + 1 from rfl, tramp_run_succ]
  simp only [hC]
  refine cd_loop N (bstate2 (cd_init N) 0) ((cd_init N).next_env) 0 ?_ ?_ ?_
    ?_ ?_
  · simp [bstate2, cd_init, List.lookup, g_rec]
  · simp [bstate2, cd_init, List.lookup]
  · simp [bstate2, cd_init, List.lookup]
  · simp [bstate2, cd_init]
  · simp [bstate2, cd_init]

end Noeval
